import Mathlib

/-!
# Verification of the product-search pipeline

A shallow embedding of the catalog-search service (query processing,
product/index store, filtering, ranking) together with proofs about the
properties its specification states.

Strings are modelled as `List Char` (`JStr`), JS numbers as `ℚ`, JS `Map`s
and `Set`s as insertion-ordered association lists / duplicate-free lists.
`Array.prototype.sort` is modelled as the run-detection + binary-insertion
algorithm that V8's TimSort executes for arrays of fewer than 64 elements.
-/

namespace ProductSearch

/-- Strings are lists of characters. -/
abbrev JStr := List Char

/-- Convert a Lean string literal to the embedding's string type. -/
def js (s : String) : JStr := s.data

/-- JS whitespace (the characters `\s` covers for the ASCII inputs involved). -/
def jsIsWs (c : Char) : Bool :=
  c == ' ' || c == '\t' || c == '\n' || c == '\r' || c == '\x0b' || c == '\x0c'

/-- Decimal digit, `\d`. -/
def jsIsDigit (c : Char) : Bool := '0' ≤ c && c ≤ '9'

/-- Word character, `\w` = `[A-Za-z0-9_]`. -/
def jsIsWordChar (c : Char) : Bool :=
  ('a' ≤ c && c ≤ 'z') || ('A' ≤ c && c ≤ 'Z') || jsIsDigit c || c == '_'

/-- Embeds `String.prototype.toLowerCase` (ASCII inputs). -/
def toLowerL (s : JStr) : JStr := s.map Char.toLower

/-- Embeds `s.includes(sub)`: substring test. -/
def includesL (s sub : JStr) : Bool := decide (sub <:+: s)

/-- Embeds `String.prototype.trim`. -/
def trimL (s : JStr) : JStr :=
  ((s.dropWhile jsIsWs).reverse.dropWhile jsIsWs).reverse

/-- Worker for `split(/\s+/)`: `prevWs` records whether the previous
character was whitespace (so that a whitespace run yields one delimiter). -/
def splitWsGo (prevWs : Bool) (cur : JStr) : JStr → List JStr
  | [] => [cur.reverse]
  | c :: rest =>
    if jsIsWs c then
      if prevWs then splitWsGo true cur rest
      else cur.reverse :: splitWsGo true [] rest
    else splitWsGo false (c :: cur) rest

/-- Embeds `s.split(/\s+/)`: maximal whitespace runs are delimiters; a leading or
trailing run produces an empty piece, and `"".split` gives `[""]`. -/
def splitWsL (s : JStr) : List JStr := splitWsGo false [] s

/-- Worker for `replace(/\s+/g, " ")`. -/
def collapseWsGo (prevWs : Bool) : JStr → JStr
  | [] => []
  | c :: rest =>
    if jsIsWs c then
      if prevWs then collapseWsGo true rest else ' ' :: collapseWsGo true rest
    else c :: collapseWsGo false rest

/-- Embeds `replace(/\s+/g, " ")`: each whitespace run becomes a single space. -/
def collapseWsL (s : JStr) : JStr := collapseWsGo false s

/-- Embeds `arr.join(" ")`. -/
def joinSpace (ws : List JStr) : JStr := (List.intersperse (js " ") ws).flatten

/-- Case-insensitive prefix test (the `i` regex flag). -/
def startsWithCI : JStr → JStr → Bool
  | [], _ => true
  | _ :: _, [] => false
  | p :: ps, c :: cs => p.toLower == c.toLower && startsWithCI ps cs

/-- Embeds `/^\d+$/.test(w)`. -/
def jsIsAllDigits (w : JStr) : Bool := !w.isEmpty && w.all jsIsDigit

/-- Value of a digit string (`parseInt` on a digits-only match). -/
def digitsToNat (ds : JStr) : Nat :=
  ds.foldl (fun acc c => acc * 10 + (c.toNat - '0'.toNat)) 0

/-- A `\b` before the current position: previous character absent or non-word. -/
def boundaryBefore (prev : Option Char) : Bool :=
  match prev with
  | none => true
  | some c => !jsIsWordChar c

/-- A `\b` after a match: next character absent or non-word. -/
def boundaryAfter (s : JStr) : Bool :=
  match s with
  | [] => true
  | c :: _ => !jsIsWordChar c

/-- Worker for whole-word replacement, fuelled so it stays structural:
each step consumes at least one character of the source. -/
def replaceWordGo (target repl : JStr) : Nat → Option Char → JStr → JStr
  | 0, _, s => s
  | _ + 1, prev, [] => (fun _ => []) prev
  | fuel + 1, prev, c :: rest =>
    if startsWithCI target (c :: rest) && boundaryBefore prev
        && boundaryAfter ((c :: rest).drop target.length) then
      repl ++ replaceWordGo target repl fuel (((c :: rest).take target.length).getLast?)
        ((c :: rest).drop target.length)
    else c :: replaceWordGo target repl fuel (some c) rest

/-- Embeds `s.replace(new RegExp("\\b" + target + "\\b", "gi"), repl)` for a
letters-only `target`: every whole-word, case-insensitive occurrence is
replaced; replacements are not rescanned. -/
def replaceWord (target repl s : JStr) : JStr :=
  if target.isEmpty then s else replaceWordGo target repl s.length none s

/-- Inner loop of the Levenshtein distance row update. -/
def levRowGo (ca : Char) : JStr → Nat → Nat → List Nat → List Nat
  | [], _, _, _ => []
  | _ :: _, _, _, [] => []
  | cb :: bs, diag, left, up :: prest =>
    let cost := if ca == cb then 0 else 1
    let v := min (min (left + 1) (up + 1)) (diag + cost)
    v :: levRowGo ca bs up v prest

/-- One row update of the Levenshtein DP table. -/
def levRow (ca : Char) (b : JStr) (prev : List Nat) : List Nat :=
  match prev with
  | [] => []
  | p0 :: prest => (p0 + 1) :: levRowGo ca b p0 (p0 + 1) prest

/-- The `leven` package: Levenshtein edit distance. -/
def leven (a b : JStr) : Nat :=
  (a.foldl (fun row ca => levRow ca b row) (List.range (b.length + 1))).getLastD 0

/-! ## QueryProcessor constants (`utils/constants.js`) -/

/-- Embeds `HINGLISH_MAPPINGS`, in object-key order. -/
def HINGLISH_MAPPINGS : List (JStr × JStr) :=
  [(js "sasta", js "cheap"), (js "sastha", js "cheap"), (js "wala", js "with"),
   (js "mein", js "in"), (js "ka", js "of"), (js "ki", js "of"), (js "ke", js "of"),
   (js "se", js "from"), (js "par", js "on")]

/-- Embeds `SPELLING_CORRECTIONS`, in object-key order. -/
def SPELLING_CORRECTIONS : List (JStr × JStr) :=
  [(js "ifone", js "iphone"), (js "ipone", js "iphone"), (js "sastha", js "sasta"),
   (js "samsung", js "samsung"), (js "oneplus", js "oneplus")]

/-- Brand vocabulary of `QueryProcessor` (spelling correction). -/
def brands : List JStr :=
  [js "iphone", js "samsung", js "oneplus", js "xiaomi", js "redmi",
   js "oppo", js "vivo", js "realme", js "nokia"]

/-- Product-term vocabulary of `QueryProcessor` (spelling correction). -/
def productTerms : List JStr :=
  [js "phone", js "mobile", js "laptop", js "headphone", js "charger",
   js "cover", js "case", js "screen", js "guard"]

/-! ## QueryProcessor (`services/QueryProcessor.js`) -/

/-- Spelling correction of a single word: brands are checked first, then
product terms; a term at edit distance in (0, 2] from a word longer than
3 characters replaces the word. -/
def correctWord (word : JStr) : JStr :=
  match brands.find? (fun brand =>
      let distance := leven word brand
      decide (distance ≤ 2) && decide (distance > 0) && decide (word.length > 3)) with
  | some brand => brand
  | none =>
    match productTerms.find? (fun term =>
        let distance := leven word term
        decide (distance ≤ 2) && decide (distance > 0) && decide (word.length > 3)) with
    | some term => term
    | none => word

/-- Embeds `QueryProcessor.correctSpelling`. -/
def correctSpelling (query : JStr) : JStr :=
  let corrected :=
    SPELLING_CORRECTIONS.foldl (fun s kv => replaceWord kv.1 kv.2 s) (toLowerL query)
  let words := splitWsL corrected
  joinSpace (words.map correctWord)

/-- Embeds `QueryProcessor.translateHinglish`. -/
def translateHinglish (query : JStr) : JStr :=
  HINGLISH_MAPPINGS.foldl (fun s kv => replaceWord kv.1 kv.2 s) (toLowerL query)

/-! ### Price-range extraction

The seven regexes of `extractPriceRange` are embedded as scanners that, at a
given position, return the number of characters the regex would match there.
`scanAll` then reproduces `String.prototype.match` with the `g` flag:
leftmost, non-overlapping occurrences. -/

/-- First alternative of an ordered alternation that succeeds (regex `(a|b|…)`). -/
def matchFirst (ws : List JStr) (s : JStr) : Option Nat :=
  match ws with
  | [] => none
  | w :: rest => if startsWithCI w s then some w.length else matchFirst rest s

/-- Leading whitespace count, `\s*`. -/
def countWs (s : JStr) : Nat := (s.takeWhile jsIsWs).length

/-- Embeds `(\d+)`: leading digit-run length, if nonempty. -/
def matchDigits (s : JStr) : Option Nat :=
  let n := (s.takeWhile jsIsDigit).length
  if n = 0 then none else some n

/-- Currency suffix alternation `(rupees?|rs\.?)`, greedy within each branch. -/
def currencyAlts : List JStr := [js "rupees", js "rupee", js "rs.", js "rs"]

/-- Embeds `(\d+)\s*(tag₁|tag₂|…)\s*(rupees?|rs\.?)?` at the current position. -/
def patNumTag (tags : List JStr) (s : JStr) : Option Nat := do
  let d ← matchDigits s
  let s1 := s.drop d
  let w1 := countWs s1
  let s2 := s1.drop w1
  let t ← matchFirst tags s2
  let s3 := s2.drop t
  let w2 := countWs s3
  let s4 := s3.drop w2
  let cur := (matchFirst currencyAlts s4).getD 0
  pure (d + w1 + t + w2 + cur)

/-- Embeds `(\d+)\s*(rupees?|rs\.?)` at the current position. -/
def patNumRupees (s : JStr) : Option Nat := do
  let d ← matchDigits s
  let s1 := s.drop d
  let w1 := countWs s1
  let s2 := s1.drop w1
  let c ← matchFirst currencyAlts s2
  pure (d + w1 + c)

/-- Embeds `kw\s*(\d+)\s*(k|thousand)?` at the current position
(`kw` is `under`, `below`, `upto` or `max`). -/
def patKwNum (kw : JStr) (s : JStr) : Option Nat := do
  let k ← if startsWithCI kw s then some kw.length else none
  let s1 := s.drop k
  let w1 := countWs s1
  let s2 := s1.drop w1
  let d ← matchDigits s2
  let s3 := s2.drop d
  let w2 := countWs s3
  let s4 := s3.drop w2
  let t := (matchFirst [js "k", js "thousand"] s4).getD 0
  pure (k + w1 + d + w2 + t)

/-- Worker for `query.match(pattern)` with the `g` flag: try every position
left to right, continue after each (nonempty) match. -/
def scanAllGo (pat : JStr → Option Nat) : Nat → JStr → List JStr
  | 0, _ => []
  | _ + 1, [] => []
  | fuel + 1, c :: rest =>
    match pat (c :: rest) with
    | some n =>
      if n = 0 then scanAllGo pat fuel rest
      else (c :: rest).take n :: scanAllGo pat fuel ((c :: rest).drop n)
    | none => scanAllGo pat fuel rest

/-- All occurrences of a pattern in a string, leftmost and non-overlapping. -/
def scanAll (pat : JStr → Option Nat) (s : JStr) : List JStr :=
  scanAllGo pat s.length s

/-- First digit run inside a match, `match.match(/(\d+)/)`. -/
def firstDigitRun : JStr → Option JStr
  | [] => none
  | c :: rest =>
    if jsIsDigit c then some (c :: rest.takeWhile jsIsDigit)
    else firstDigitRun rest

/-- The extracted price range; `minPrice` is declared next to `maxPrice`
in the source but no branch ever assigns it. -/
structure PriceRange where
  minPrice : Option ℚ
  maxPrice : Option ℚ
deriving DecidableEq, Repr

/-- The seven price regexes of `extractPriceRange`, in source order. -/
def pricePatterns : List (JStr → Option Nat) :=
  [patNumTag [js "k", js "thousand", js "thousands"],
   patNumTag [js "lakh", js "lac"],
   patNumRupees,
   patKwNum (js "under"), patKwNum (js "below"),
   patKwNum (js "upto"), patKwNum (js "max")]

/-- Embeds `QueryProcessor.extractPriceRange`: every numeric match overwrites
`maxPrice` (the `under/below/upto/max` branch and the default branch both
assign `maxPrice`); `minPrice` is initialised to `null` and never set. -/
def extractPriceRange (query : JStr) : PriceRange :=
  let maxPrice :=
    pricePatterns.foldl (fun acc pat =>
      (scanAll pat query).foldl (fun acc m =>
        match firstDigitRun m with
        | some ds =>
          let value : ℚ := digitsToNat ds
          let ml := toLowerL m
          let value :=
            if includesL ml (js "k") || includesL ml (js "thousand") then value * 1000
            else if includesL ml (js "lakh") || includesL ml (js "lac") then value * 100000
            else value
          if includesL ml (js "under") || includesL ml (js "below")
              || includesL ml (js "upto") || includesL ml (js "max") then
            some value
          else
            -- default: treat as max price
            some value
        | none => acc) acc) none
  { minPrice := none, maxPrice := maxPrice }

/-- Color vocabulary of `extractColor`, in source order. -/
def queryColors : List JStr :=
  [js "red", js "blue", js "green", js "yellow", js "black", js "white",
   js "silver", js "gold", js "pink", js "purple", js "orange", js "grey",
   js "gray", js "brown", js "starlight", js "cosmic orange", js "deep blue",
   js "sky blue", js "space black", js "space gray"]

/-- Embeds `QueryProcessor.extractColor`. -/
def extractColor (query : JStr) : Option JStr :=
  let lowerQuery := toLowerL query
  queryColors.find? (fun color => includesL lowerQuery (toLowerL color))

/-- Embeds `/iphone\s*(\d+)\s*(pro|max|plus|air)?/gi` at the current position. -/
def patIphone (s : JStr) : Option Nat := do
  let a ← if startsWithCI (js "iphone") s then some (js "iphone").length else none
  let s1 := s.drop a
  let w1 := countWs s1
  let s2 := s1.drop w1
  let d ← matchDigits s2
  let s3 := s2.drop d
  let w2 := countWs s3
  let s4 := s3.drop w2
  let t := (matchFirst [js "pro", js "max", js "plus", js "air"] s4).getD 0
  pure (a + w1 + d + w2 + t)

/-- Embeds `/galaxy\s+s(\d+)/gi` at the current position. -/
def patGalaxy (s : JStr) : Option Nat := do
  let a ← if startsWithCI (js "galaxy") s then some (js "galaxy").length else none
  let s1 := s.drop a
  let w1 := countWs s1
  let _ ← if w1 = 0 then none else some ()
  let s2 := s1.drop w1
  let b ← if startsWithCI (js "s") s2 then some 1 else none
  let s3 := s2.drop b
  let d ← matchDigits s3
  pure (a + w1 + b + d)

/-- Embeds `/\b(\d+)\b/`: the first digit run flanked by word boundaries. -/
def boundedDigitsGo (prev : Option Char) : JStr → Option JStr
  | [] => none
  | c :: rest =>
    if jsIsDigit c && boundaryBefore prev
        && boundaryAfter (rest.dropWhile jsIsDigit) then
      some (c :: rest.takeWhile jsIsDigit)
    else boundedDigitsGo (some c) rest

/-- Embeds `QueryProcessor.extractModel`. -/
def extractModel (query : JStr) : Option JStr :=
  match scanAll patIphone query with
  | m :: _ => some (trimL m)
  | [] =>
    match scanAll patGalaxy query with
    | m :: _ => some (trimL m)
    | [] =>
      match boundedDigitsGo none query with
      | some ds => some ds
      | none => none

/-- Brand vocabulary of `extractBrand`, in source order. -/
def intentBrands : List JStr :=
  [js "iphone", js "apple", js "samsung", js "oneplus", js "xiaomi",
   js "redmi", js "oppo", js "vivo", js "realme", js "nokia"]

/-- Embeds `QueryProcessor.extractBrand`; `"iphone"` normalises to `"apple"`. -/
def extractBrand (query : JStr) : Option JStr :=
  let lowerQuery := toLowerL query
  (intentBrands.find? (fun brand => includesL lowerQuery brand)).map
    (fun brand => if brand = js "iphone" then js "apple" else brand)

/-- JS truthiness of an optional number (`null`, `undefined` and `0` are falsy). -/
def optQTruthy : Option ℚ → Bool
  | some x => if x = 0 then false else true
  | none => false

/-- JS truthiness of an optional string (`null`, `undefined` and `""` are falsy). -/
def optStrTruthy : Option JStr → Bool
  | some s => !s.isEmpty
  | none => false

/-- Embeds `intent.filterBy`. -/
structure FilterBy where
  color : Option JStr := none
  model : Option JStr := none
  brand : Option JStr := none
  priceRange : Option PriceRange := none
deriving DecidableEq, Repr

/-- Embeds `intent`. -/
structure Intent where
  sortBy : Option JStr
  filterBy : FilterBy
  searchTerms : List JStr
deriving DecidableEq, Repr

/-- Filter keywords excluded from `searchTerms`. -/
def filterKeywords : List JStr :=
  [js "latest", js "new", js "cheap", js "sasta", js "best", js "top",
   js "red", js "blue", js "black", js "white", js "color", js "rupees",
   js "rs", js "k", js "thousand", js "lakh", js "under", js "below",
   js "upto", js "max"]

/-- Embeds `QueryProcessor.extractIntent`: the three sort-keyword groups are tested
in order and a later group overwrites an earlier one; filters are attached
only when their extracted value is truthy. -/
def extractIntent (query : JStr) : Intent :=
  let lowerQuery := toLowerL query
  let sortBy : Option JStr := none
  let sortBy :=
    if includesL lowerQuery (js "latest") || includesL lowerQuery (js "new")
        || includesL lowerQuery (js "newest") then some (js "latest") else sortBy
  let sortBy :=
    if includesL lowerQuery (js "cheap") || includesL lowerQuery (js "sasta")
        || includesL lowerQuery (js "sastha") || includesL lowerQuery (js "affordable")
        || includesL lowerQuery (js "budget") then some (js "price_asc") else sortBy
  let sortBy :=
    if includesL lowerQuery (js "best") || includesL lowerQuery (js "top") then
      some (js "rating") else sortBy
  let priceRange := extractPriceRange query
  let filterBy : FilterBy :=
    { color := extractColor query
      model := extractModel query
      brand := extractBrand query
      priceRange :=
        if optQTruthy priceRange.minPrice || optQTruthy priceRange.maxPrice then
          some priceRange
        else none }
  let words := splitWsL (toLowerL query)
  { sortBy := sortBy
    filterBy := filterBy
    searchTerms :=
      words.filter (fun word =>
        decide (word.length > 2) && !filterKeywords.contains word) }

/-- Embeds `QueryProcessor.normalizeQuery` (the input is always a string here, so the
`typeof` guard is omitted). -/
def normalizeQuery (query : JStr) : JStr :=
  let normalized := query.map (fun c => if jsIsWordChar c || jsIsWs c then c else ' ')
  let normalized := toLowerL normalized
  let normalized := collapseWsL normalized
  trimL normalized

/-- The processed query record. -/
structure ProcessedQuery where
  original : JStr
  normalized : JStr
  corrected : JStr
  intent : Intent
deriving DecidableEq, Repr

/-- The empty intent: the source's falsy-query branch stores a bare `{}`
for `intent`; downstream code only reaches `intent` for nonempty queries,
so the empty record is an equivalent model. -/
def emptyIntent : Intent := { sortBy := none, filterBy := {}, searchTerms := [] }

/-- Embeds `QueryProcessor.processQuery`. -/
def processQuery (query : JStr) : ProcessedQuery :=
  if query.isEmpty then
    { original := [], normalized := [], corrected := [], intent := emptyIntent }
  else
    let normalized := normalizeQuery query
    let translated := translateHinglish normalized
    let corrected := correctSpelling translated
    { original := query, normalized := normalized, corrected := corrected
      intent := extractIntent corrected }

/-! ## Product model (`models/Product.js`) -/

/-- A catalog product. JS numbers are modelled as `ℚ`; `metadata` is an
insertion-ordered map of string keys to string values (the source only
ever indexes/searches its string-valued entries). -/
structure Product where
  productId : Nat
  title : JStr
  description : JStr
  brand : JStr
  category : JStr
  price : ℚ
  mrp : ℚ
  sellingPrice : ℚ
  currency : JStr
  rating : ℚ
  stock : ℚ
  metadata : List (JStr × JStr)
  unitsSold : ℚ
  returnRate : ℚ
  reviewCount : ℚ
  complaintCount : ℚ
  discountPercentage : ℚ
  isLatest : Bool
  popularityScore : ℚ
  searchKeywords : List JStr
  searchText : JStr
deriving DecidableEq, Repr

/-- Embeds `[...new Set(words)]`: deduplicate keeping first occurrences. -/
def dedupFirst (ws : List JStr) : List JStr :=
  ws.foldl (fun acc w => if acc.contains w then acc else acc ++ [w]) []

/-- Embeds `Product.extractKeywords`: strip non-word characters, tokenize, keep
tokens longer than 2 characters or made only of digits, deduplicate. -/
def extractKeywords (text : JStr) : List JStr :=
  let words :=
    (splitWsL (text.map (fun c => if jsIsWordChar c || jsIsWs c then c else ' '))).filter
      (fun word => decide (word.length > 2) || jsIsAllDigits word)
  dedupFirst words

/-- Embeds `Product.updateSearchText`: recompute `searchText` (lowercased join of
title, description, brand, category and metadata values) and re-extract
`searchKeywords` from it. -/
def updateSearchText (p : Product) : Product :=
  let parts := [p.title, p.description, p.brand, p.category] ++ p.metadata.map (·.2)
  let searchText := toLowerL (joinSpace parts)
  { p with searchText := searchText, searchKeywords := extractKeywords searchText }

/-- The argument object of the `Product` constructor; `none` models an
absent (`undefined`) field. -/
structure ProductData where
  productId : Option Nat := none
  title : Option JStr := none
  description : Option JStr := none
  brand : Option JStr := none
  category : Option JStr := none
  price : Option ℚ := none
  mrp : Option ℚ := none
  sellingPrice : Option ℚ := none
  currency : Option JStr := none
  rating : Option ℚ := none
  stock : Option ℚ := none
  metadata : Option (List (JStr × JStr)) := none
  unitsSold : Option ℚ := none
  returnRate : Option ℚ := none
  reviewCount : Option ℚ := none
  complaintCount : Option ℚ := none
  discountPercentage : Option ℚ := none
  isLatest : Option Bool := none
  popularityScore : Option ℚ := none
  searchKeywords : Option (List JStr) := none
  searchText : Option JStr := none
deriving Repr

/-- Embeds `v || d` for an optional string (absent or `""` falls back). -/
def jsOrStr (v : Option JStr) (d : JStr) : JStr :=
  match v with
  | some s => if s.isEmpty then d else s
  | none => d

/-- Embeds `v || d` for an optional number (absent or `0` falls back). -/
def jsOrQ (v : Option ℚ) (d : ℚ) : ℚ :=
  match v with
  | some x => if x = 0 then d else x
  | none => d

/-- The `Product` constructor: defaults via `||`, the discount computation,
then `updateSearchText`. -/
def mkProduct (data : ProductData) : Product :=
  let p : Product :=
    { productId := data.productId.getD 0
      title := jsOrStr data.title []
      description := jsOrStr data.description []
      brand := jsOrStr data.brand (js "unknown")
      category := jsOrStr data.category (js "mobile")
      price := jsOrQ data.price 0
      mrp := jsOrQ data.mrp (jsOrQ data.price 0)
      sellingPrice := jsOrQ data.sellingPrice (jsOrQ data.price 0)
      currency := jsOrStr data.currency (js "Rupee")
      rating := jsOrQ data.rating 0
      stock := jsOrQ data.stock 0
      metadata := data.metadata.getD []
      unitsSold := jsOrQ data.unitsSold 0
      returnRate := jsOrQ data.returnRate 0
      reviewCount := jsOrQ data.reviewCount 0
      complaintCount := jsOrQ data.complaintCount 0
      discountPercentage := jsOrQ data.discountPercentage 0
      isLatest := data.isLatest.getD false
      popularityScore := jsOrQ data.popularityScore 0
      searchKeywords := data.searchKeywords.getD []
      searchText := data.searchText.getD [] }
  let p :=
    if p.mrp > 0 ∧ p.price < p.mrp then
      { p with discountPercentage := (p.mrp - p.price) / p.mrp * 100 }
    else p
  updateSearchText p

/-! ## ProductService (`services/ProductService.js`)

JS `Map`s are insertion-ordered association lists, JS `Set`s are
duplicate-free insertion-ordered lists. The `saveProductsToFile` side
effect is pure I/O and is not modelled. -/

/-- A JS `Set` of product ids. -/
abbrev IdSet := List Nat

/-- Embeds `set.add(id)`. -/
def setAdd (s : IdSet) (id : Nat) : IdSet :=
  if s.contains id then s else s ++ [id]

/-- Embeds `set.delete(id)`. -/
def setDelete (s : IdSet) (id : Nat) : IdSet := s.filter (fun x => x != id)

/-- Embeds `map.get(k)`. -/
def mapGet {ν : Type} (m : List (JStr × ν)) (k : JStr) : Option ν :=
  (m.find? (fun kv => kv.1 == k)).map (·.2)

/-- Embeds `map.set(k, v)`: update in place or append. -/
def mapSet {ν : Type} (m : List (JStr × ν)) (k : JStr) (v : ν) : List (JStr × ν) :=
  if (m.find? (fun kv => kv.1 == k)).isSome then
    m.map (fun kv => if kv.1 == k then (k, v) else kv)
  else m ++ [(k, v)]

/-- Embeds `map.delete(k)`. -/
def mapDelete {ν : Type} (m : List (JStr × ν)) (k : JStr) : List (JStr × ν) :=
  m.filter (fun kv => kv.1 != k)

/-- Embeds `map.get(id)` for the id-keyed product map. -/
def pmapGet (m : List (Nat × Product)) (k : Nat) : Option Product :=
  (m.find? (fun kv => kv.1 == k)).map (·.2)

/-- Embeds `map.set(id, p)` for the id-keyed product map. -/
def pmapSet (m : List (Nat × Product)) (k : Nat) (v : Product) : List (Nat × Product) :=
  if (m.find? (fun kv => kv.1 == k)).isSome then
    m.map (fun kv => if kv.1 == k then (k, v) else kv)
  else m ++ [(k, v)]

/-- An inverted index: key → set of product ids. -/
abbrev Index := List (JStr × IdSet)

/-- The `ProductService` state. -/
structure Store where
  products : List (Nat × Product)
  categoryIndex : Index
  brandIndex : Index
  keywordIndex : Index
  nextProductId : Nat
deriving Repr

/-- The initial `ProductService` state. -/
def emptyStore : Store :=
  { products := [], categoryIndex := [], brandIndex := [], keywordIndex := []
    nextProductId := 1 }

/-- Add an id under a key: create the bucket if absent, then `add`. -/
def indexAdd (idx : Index) (key : JStr) (id : Nat) : Index :=
  match mapGet idx key with
  | some ids => mapSet idx key (setAdd ids id)
  | none => mapSet idx key (setAdd [] id)

/-- Remove an id from a key's bucket, pruning the bucket when it empties. -/
def indexRemove (idx : Index) (key : JStr) (id : Nat) : Index :=
  match mapGet idx key with
  | some ids =>
    let ids := setDelete ids id
    if ids.length = 0 then mapDelete idx key else mapSet idx key ids
  | none => idx

/-- Embeds `ProductService.updateIndexes`: file the product's id under its
lowercased category, lowercased brand and every `searchKeyword`. -/
def updateIndexes (s : Store) (product : Product) : Store :=
  let s := { s with categoryIndex := indexAdd s.categoryIndex (toLowerL product.category) product.productId }
  let s := { s with brandIndex := indexAdd s.brandIndex (toLowerL product.brand) product.productId }
  let ki := product.searchKeywords.foldl
    (fun idx keyword => indexAdd idx keyword product.productId) s.keywordIndex
  { s with keywordIndex := ki }

/-- Embeds `ProductService.removeFromIndexes`: unfile the product's id from its
(current) category, brand and `searchKeywords`, pruning empty buckets. -/
def removeFromIndexes (s : Store) (product : Product) : Store :=
  let s := { s with categoryIndex := indexRemove s.categoryIndex (toLowerL product.category) product.productId }
  let s := { s with brandIndex := indexRemove s.brandIndex (toLowerL product.brand) product.productId }
  let ki := product.searchKeywords.foldl
    (fun idx keyword => indexRemove idx keyword product.productId) s.keywordIndex
  { s with keywordIndex := ki }

/-- Embeds `ProductService.addProduct` (without the file save): assign an id when
the given one is absent/falsy, construct the product, store and index it. -/
def addProduct (s : Store) (data : ProductData) : Store :=
  let (data, s) :=
    if (match data.productId with | some pid => decide (pid ≠ 0) | none => false) then
      (data,
        if data.productId.getD 0 ≥ s.nextProductId then
          { s with nextProductId := data.productId.getD 0 + 1 }
        else s)
    else
      ({ data with productId := some s.nextProductId },
        { s with nextProductId := s.nextProductId + 1 })
  let product := mkProduct data
  let s := { s with products := pmapSet s.products product.productId product }
  updateIndexes s product

/-- Embeds `{ ...old, ...patch }`: keys of `old` in order with patched values,
then new keys of `patch` appended. -/
def mergeMetadata (old patch : List (JStr × JStr)) : List (JStr × JStr) :=
  patch.foldl (fun acc kv => mapSet acc kv.1 kv.2) old

/-- Embeds `ProductService.updateProductMetadata` (without the file save): merge the
metadata patch, recompute the search text, then remove from and re-add to
the indexes — in exactly the source's order, where `updateSearchText` runs
*before* `removeFromIndexes`. -/
def updateProductMetadata (s : Store) (productId : Nat) (metadata : List (JStr × JStr)) :
    Store :=
  match pmapGet s.products productId with
  | none => s
  | some product =>
    let product := { product with metadata := mergeMetadata product.metadata metadata }
    let product := updateSearchText product
    let s := { s with products := pmapSet s.products productId product }
    let s := removeFromIndexes s product
    updateIndexes s product

/-- Embeds `ProductService.deleteProduct` (without the file save). -/
def deleteProduct (s : Store) (productId : Nat) : Store :=
  match pmapGet s.products productId with
  | none => s
  | some product =>
    let s := removeFromIndexes s product
    { s with products := s.products.filter (fun kv => kv.1 != productId) }

/-- Embeds `ProductService.getProduct` (`null` as `none`). -/
def getProduct (s : Store) (productId : Nat) : Option Product :=
  pmapGet s.products productId

/-- Embeds `ProductService.getAllProductsUnpaginated`. -/
def getAllProductsUnpaginated (s : Store) : List Product := s.products.map (·.2)

/-- Embeds `ProductService.getProductsByKeyword`. -/
def getProductsByKeyword (s : Store) (keyword : JStr) : List Product :=
  ((mapGet s.keywordIndex (toLowerL keyword)).getD []).filterMap
    (fun id => pmapGet s.products id)

/-- Embeds `ProductService.getProductsByBrand`. -/
def getProductsByBrand (s : Store) (brand : JStr) : List Product :=
  ((mapGet s.brandIndex (toLowerL brand)).getD []).filterMap
    (fun id => pmapGet s.products id)

/-- Embeds `ProductService.getProductsByCategory`. -/
def getProductsByCategory (s : Store) (category : JStr) : List Product :=
  ((mapGet s.categoryIndex (toLowerL category)).getD []).filterMap
    (fun id => pmapGet s.products id)

/-- Embeds `ProductService.searchProductsByText`: AND-intersect the per-keyword id
sets; if the intersection is empty, fall back to their union. (The final
`map(id => products.get(id))` cannot yield an absent product because index
ids always point at live products, so it is modelled with `filterMap`.) -/
def searchProductsByText (s : Store) (searchText : JStr) : List Product :=
  let keywords :=
    (splitWsL (toLowerL searchText)).filter
      (fun k => decide (k.length > 2) || jsIsAllDigits k)
  let productSets := keywords.map (fun k => getProductsByKeyword s k)
  if productSets.length = 0 then []
  else
    let resultSet :=
      (productSets.headD []).foldl (fun acc p => setAdd acc p.productId) []
    let resultSet :=
      (productSets.drop 1).foldl (fun acc set =>
        let currentSet := set.foldl (fun cs p => setAdd cs p.productId) []
        acc.filter (fun id => currentSet.contains id)) resultSet
    let resultSet :=
      if resultSet.length = 0 then
        productSets.foldl (fun acc set =>
          set.foldl (fun acc p => setAdd acc p.productId) acc) []
      else resultSet
    resultSet.filterMap (fun id => pmapGet s.products id)

/-! ## Ranking constants (`utils/constants.js`) -/

def RANKING_WEIGHTS_RELEVANCE : ℚ := 0.5
def RANKING_WEIGHTS_QUALITY : ℚ := 0.3
def RANKING_WEIGHTS_POPULARITY : ℚ := 0.2

def RELEVANCE_WEIGHTS_TITLE_MATCH : ℚ := 0.4
def RELEVANCE_WEIGHTS_DESCRIPTION_MATCH : ℚ := 0.2
def RELEVANCE_WEIGHTS_METADATA_MATCH : ℚ := 0.2
def RELEVANCE_WEIGHTS_EXACT_MATCH_BONUS : ℚ := 0.2
def RELEVANCE_WEIGHTS_BRAND_MATCH_BONUS : ℚ := 0.1
def RELEVANCE_WEIGHTS_MODEL_MATCH_BONUS : ℚ := 0.1

def QUALITY_WEIGHTS_RATING : ℚ := 0.3
def QUALITY_WEIGHTS_REVIEW_COUNT : ℚ := 0.2
def QUALITY_WEIGHTS_RETURN_RATE : ℚ := 0.2
def QUALITY_WEIGHTS_COMPLAINT_COUNT : ℚ := 0.1
def QUALITY_WEIGHTS_STOCK_AVAILABILITY : ℚ := 0.2

def POPULARITY_WEIGHTS_UNITS_SOLD : ℚ := 0.4
def POPULARITY_WEIGHTS_DISCOUNT_PERCENTAGE : ℚ := 0.3
def POPULARITY_WEIGHTS_IS_LATEST : ℚ := 0.3

def SEARCH_CONFIG_MAX_RESULTS : Int := 100
def SEARCH_CONFIG_DEFAULT_RESULTS : Int := 50
def SEARCH_CONFIG_FUZZY_THRESHOLD : Nat := 2
def SEARCH_CONFIG_MIN_STOCK_FOR_BOOST : ℚ := 1

/-! ## RankingEngine (`services/RankingEngine.js`) -/

/-- Total access to an optional number (used after a truthiness guard). -/
def getQ : Option ℚ → ℚ
  | some x => x
  | none => 0

/-- Total access to an optional string (used after a truthiness guard). -/
def getS : Option JStr → JStr
  | some s => s
  | none => []

/-- Embeds `metadata` value lookup with `|| ""` (absent key behaves as the empty
string, exactly how helper accesses like `product.metadata.model || ""`
behave). -/
def metaGet (product : Product) (key : JStr) : JStr :=
  getS (mapGet product.metadata key)

/-- Embeds `a || b` for strings. -/
def jsOrS (a b : JStr) : JStr := if a.isEmpty then b else a

/-- Embeds `RankingEngine.calculateFuzzyMatch`. -/
def calculateFuzzyMatch (product : Product) (keywords : List JStr) : ℚ :=
  let productText := toLowerL product.searchText
  let matchScore :=
    keywords.foldl (fun matchScore keyword =>
      let productWords := splitWsL productText
      productWords.foldl (fun ms word =>
        if word.length > 3 ∧ keyword.length > 3 then
          let distance := leven word keyword
          if distance ≤ SEARCH_CONFIG_FUZZY_THRESHOLD ∧ distance > 0 then
            ms + (1 - (distance : ℚ) / (SEARCH_CONFIG_FUZZY_THRESHOLD : ℚ))
              / (keywords.length : ℚ)
          else ms
        else ms) matchScore) 0
  min 1 matchScore

/-- Embeds `RankingEngine.calculateRelevanceScore` (clamped to `[0,1]`). -/
def calculateRelevanceScore (product : Product) (query : JStr)
    (processedQuery : ProcessedQuery) : ℚ :=
  let queryLower := toLowerL query
  let correctedQuery := toLowerL processedQuery.corrected
  let keywords := (splitWsL correctedQuery).filter (fun k => decide (k.length > 2))
  let titleLower := toLowerL product.title
  let score : ℚ := 0
  let score :=
    if includesL titleLower queryLower then score + RELEVANCE_WEIGHTS_TITLE_MATCH
    else
      let titleMatchCount := (keywords.filter (fun k => includesL titleLower k)).length
      if titleMatchCount > 0 then
        score + RELEVANCE_WEIGHTS_TITLE_MATCH * ((titleMatchCount : ℚ) / (keywords.length : ℚ))
      else score
  let descLower := toLowerL product.description
  let descMatchCount := (keywords.filter (fun k => includesL descLower k)).length
  let score :=
    if descMatchCount > 0 then
      score + RELEVANCE_WEIGHTS_DESCRIPTION_MATCH * ((descMatchCount : ℚ) / (keywords.length : ℚ))
    else score
  let metadataText := toLowerL (joinSpace (product.metadata.map (·.2)))
  let metadataMatchCount := (keywords.filter (fun k => includesL metadataText k)).length
  let score :=
    if metadataMatchCount > 0 then
      score + RELEVANCE_WEIGHTS_METADATA_MATCH * ((metadataMatchCount : ℚ) / (keywords.length : ℚ))
    else score
  let score :=
    if titleLower = queryLower ∨ includesL titleLower queryLower then
      score + RELEVANCE_WEIGHTS_EXACT_MATCH_BONUS
    else score
  let intent := processedQuery.intent
  let score :=
    if optStrTruthy intent.filterBy.brand then
      if toLowerL product.brand = toLowerL (getS intent.filterBy.brand) then
        score + RELEVANCE_WEIGHTS_BRAND_MATCH_BONUS
      else score
    else score
  let score :=
    if optStrTruthy intent.filterBy.model then
      let productModel := metaGet product (js "model")
      if includesL (toLowerL productModel) (toLowerL (getS intent.filterBy.model)) then
        score + RELEVANCE_WEIGHTS_MODEL_MATCH_BONUS
      else score
    else score
  let score :=
    if optStrTruthy intent.filterBy.color then
      let productColor := metaGet product (js "color")
      if includesL (toLowerL productColor) (toLowerL (getS intent.filterBy.color)) then
        score + RELEVANCE_WEIGHTS_MODEL_MATCH_BONUS -- source reuses the model weight
      else score
    else score
  let fuzzyMatch := calculateFuzzyMatch product keywords
  let score := score + fuzzyMatch * 0.1
  min 1 score

/-- Embeds `RankingEngine.calculateQualityScore` (clamped to `[0,1]`). -/
def calculateQualityScore (product : Product) : ℚ :=
  let score : ℚ := 0
  let ratingScore := product.rating / 5
  let score := score + ratingScore * QUALITY_WEIGHTS_RATING
  let maxReviews : ℚ := 10000
  let reviewScore := min 1 (product.reviewCount / maxReviews)
  let score := score + reviewScore * QUALITY_WEIGHTS_REVIEW_COUNT
  let returnScore := 1 - product.returnRate
  let score := score + returnScore * QUALITY_WEIGHTS_RETURN_RATE
  let maxComplaints : ℚ := 1000
  let complaintScore := 1 - min 1 (product.complaintCount / maxComplaints)
  let score := score + complaintScore * QUALITY_WEIGHTS_COMPLAINT_COUNT
  let stockScore : ℚ := if product.stock > 0 then 1 else 0
  let score := score + stockScore * QUALITY_WEIGHTS_STOCK_AVAILABILITY
  min 1 score

/-- Embeds `RankingEngine.calculatePopularityScore` (clamped to `[0,1]`). -/
def calculatePopularityScore (product : Product) : ℚ :=
  let score : ℚ := 0
  let maxUnitsSold : ℚ := 100000
  let unitsScore := min 1 (product.unitsSold / maxUnitsSold)
  let score := score + unitsScore * POPULARITY_WEIGHTS_UNITS_SOLD
  let discountScore := min 1 (product.discountPercentage / 50)
  let score := score + discountScore * POPULARITY_WEIGHTS_DISCOUNT_PERCENTAGE
  let latestScore : ℚ := if product.isLatest then 1 else 0
  let score := score + latestScore * POPULARITY_WEIGHTS_IS_LATEST
  min 1 score

/-- Embeds `RankingEngine.applySpecialBoosts`. -/
def applySpecialBoosts (product : Product) (processedQuery : ProcessedQuery) : ℚ :=
  let boost : ℚ := 0
  let intent := processedQuery.intent
  let boost :=
    match intent.filterBy.priceRange with
    | some pr =>
      if optQTruthy pr.maxPrice ∧ product.price ≤ getQ pr.maxPrice then
        let priceDiff := getQ pr.maxPrice - product.price
        let boostAmount := min 0.2 (priceDiff / getQ pr.maxPrice * 0.2)
        boost + boostAmount
      else boost
    | none => boost
  let boost :=
    if product.stock ≥ SEARCH_CONFIG_MIN_STOCK_FOR_BOOST then boost + 0.1 else boost
  let boost :=
    if intent.sortBy = some (js "latest") ∧ product.isLatest then boost + 0.15 else boost
  let boost :=
    if optStrTruthy intent.filterBy.color ∧ ¬(metaGet product (js "color")).isEmpty then
      let productColor := toLowerL (metaGet product (js "color"))
      if includesL productColor (toLowerL (getS intent.filterBy.color)) then boost + 0.1
      else boost
    else boost
  let boost :=
    if optStrTruthy intent.filterBy.model ∧ ¬(metaGet product (js "model")).isEmpty then
      let productModel := toLowerL (metaGet product (js "model"))
      if includesL productModel (toLowerL (getS intent.filterBy.model)) then boost + 0.1
      else boost
    else boost
  boost

/-- Embeds `RankingEngine.calculateRankingScore` (clamped to `[0,1]`). -/
def calculateRankingScore (product : Product) (query : JStr)
    (processedQuery : ProcessedQuery) : ℚ :=
  let relevanceScore := calculateRelevanceScore product query processedQuery
  let qualityScore := calculateQualityScore product
  let popularityScore := calculatePopularityScore product
  let finalScore :=
    relevanceScore * RANKING_WEIGHTS_RELEVANCE +
    qualityScore * RANKING_WEIGHTS_QUALITY +
    popularityScore * RANKING_WEIGHTS_POPULARITY
  let boost := applySpecialBoosts product processedQuery
  let finalScore := finalScore + boost
  min 1 (max 0 finalScore)

/-! ### Division-instrumented ranking (for the no-division-by-zero claim)

The same computations with every division routed through `safeDiv`, which
fails on a zero divisor. Proving these equal `some` of the plain scores
certifies that no division in the ranking math can divide by zero. -/

/-- Division that reports a zero divisor instead of defaulting. -/
def safeDiv (a b : ℚ) : Option ℚ := if b = 0 then none else some (a / b)

/-- Embeds `calculateFuzzyMatch` with instrumented divisions. -/
def calculateFuzzyMatchChecked (product : Product) (keywords : List JStr) : Option ℚ := do
  let productText := toLowerL product.searchText
  let matchScore ←
    keywords.foldlM (fun matchScore keyword => do
      let productWords := splitWsL productText
      productWords.foldlM (fun ms word => do
        if word.length > 3 ∧ keyword.length > 3 then
          let distance := leven word keyword
          if distance ≤ SEARCH_CONFIG_FUZZY_THRESHOLD ∧ distance > 0 then
            let t ← safeDiv (distance : ℚ) (SEARCH_CONFIG_FUZZY_THRESHOLD : ℚ)
            let v ← safeDiv (1 - t) (keywords.length : ℚ)
            pure (ms + v)
          else pure ms
        else pure ms) matchScore) (0 : ℚ)
  pure (min 1 matchScore)

/-- The title contribution of `calculateRelevanceScore`, instrumented: the
divisor `keywords.length` is only reached when some keyword matched. -/
def relTitlePartChecked (titleLower queryLower : JStr) (keywords : List JStr)
    (score : ℚ) : Option ℚ :=
  if includesL titleLower queryLower then pure (score + RELEVANCE_WEIGHTS_TITLE_MATCH)
  else
    if (keywords.filter (fun k => includesL titleLower k)).length > 0 then do
      let f ← safeDiv ((keywords.filter (fun k => includesL titleLower k)).length : ℚ)
        (keywords.length : ℚ)
      pure (score + RELEVANCE_WEIGHTS_TITLE_MATCH * f)
    else pure score

/-- A keyword-overlap contribution of `calculateRelevanceScore` (description
or metadata text), instrumented. -/
def relCountPartChecked (weight : ℚ) (text : JStr) (keywords : List JStr)
    (score : ℚ) : Option ℚ :=
  if (keywords.filter (fun k => includesL text k)).length > 0 then do
    let f ← safeDiv ((keywords.filter (fun k => includesL text k)).length : ℚ)
      (keywords.length : ℚ)
    pure (score + weight * f)
  else pure score

/-- Embeds `calculateRelevanceScore` with instrumented divisions. -/
def calculateRelevanceScoreChecked (product : Product) (query : JStr)
    (processedQuery : ProcessedQuery) : Option ℚ := do
  let queryLower := toLowerL query
  let correctedQuery := toLowerL processedQuery.corrected
  let keywords := (splitWsL correctedQuery).filter (fun k => decide (k.length > 2))
  let titleLower := toLowerL product.title
  let score : ℚ := 0
  let score ← relTitlePartChecked titleLower queryLower keywords score
  let descLower := toLowerL product.description
  let score ← relCountPartChecked RELEVANCE_WEIGHTS_DESCRIPTION_MATCH descLower keywords score
  let metadataText := toLowerL (joinSpace (product.metadata.map (·.2)))
  let score ← relCountPartChecked RELEVANCE_WEIGHTS_METADATA_MATCH metadataText keywords score
  let score :=
    if titleLower = queryLower ∨ includesL titleLower queryLower then
      score + RELEVANCE_WEIGHTS_EXACT_MATCH_BONUS
    else score
  let intent := processedQuery.intent
  let score :=
    if optStrTruthy intent.filterBy.brand then
      if toLowerL product.brand = toLowerL (getS intent.filterBy.brand) then
        score + RELEVANCE_WEIGHTS_BRAND_MATCH_BONUS
      else score
    else score
  let score :=
    if optStrTruthy intent.filterBy.model then
      if includesL (toLowerL (metaGet product (js "model")))
          (toLowerL (getS intent.filterBy.model)) then
        score + RELEVANCE_WEIGHTS_MODEL_MATCH_BONUS
      else score
    else score
  let score :=
    if optStrTruthy intent.filterBy.color then
      if includesL (toLowerL (metaGet product (js "color")))
          (toLowerL (getS intent.filterBy.color)) then
        score + RELEVANCE_WEIGHTS_MODEL_MATCH_BONUS
      else score
    else score
  let fuzzyMatch ← calculateFuzzyMatchChecked product keywords
  let score := score + fuzzyMatch * 0.1
  pure (min 1 score)

/-- The price-proximity boost of `applySpecialBoosts`, instrumented: the
divisor `maxPrice` is nonzero whenever its truthiness guard passes. -/
def boostPricePartChecked (product : Product) (priceRange : Option PriceRange)
    (boost : ℚ) : Option ℚ :=
  match priceRange with
  | some pr =>
    if optQTruthy pr.maxPrice ∧ product.price ≤ getQ pr.maxPrice then do
      let f ← safeDiv (getQ pr.maxPrice - product.price) (getQ pr.maxPrice)
      pure (boost + min 0.2 (f * 0.2))
    else pure boost
  | none => pure boost

/-- Embeds `applySpecialBoosts` with the one guarded division instrumented. -/
def applySpecialBoostsChecked (product : Product) (processedQuery : ProcessedQuery) :
    Option ℚ := do
  let boost : ℚ := 0
  let intent := processedQuery.intent
  let boost ← boostPricePartChecked product intent.filterBy.priceRange boost
  let boost :=
    if product.stock ≥ SEARCH_CONFIG_MIN_STOCK_FOR_BOOST then boost + 0.1 else boost
  let boost :=
    if intent.sortBy = some (js "latest") ∧ product.isLatest then boost + 0.15 else boost
  let boost :=
    if optStrTruthy intent.filterBy.color ∧ ¬(metaGet product (js "color")).isEmpty then
      if includesL (toLowerL (metaGet product (js "color")))
          (toLowerL (getS intent.filterBy.color)) then boost + 0.1
      else boost
    else boost
  let boost :=
    if optStrTruthy intent.filterBy.model ∧ ¬(metaGet product (js "model")).isEmpty then
      if includesL (toLowerL (metaGet product (js "model")))
          (toLowerL (getS intent.filterBy.model)) then boost + 0.1
      else boost
    else boost
  pure boost

/-- Embeds `calculateRankingScore` with instrumented divisions (the remaining
divisors in quality/popularity are the nonzero literals 5, 10000, 1000,
100000 and 50). -/
def calculateRankingScoreChecked (product : Product) (query : JStr)
    (processedQuery : ProcessedQuery) : Option ℚ := do
  let relevanceScore ← calculateRelevanceScoreChecked product query processedQuery
  let qualityScore := calculateQualityScore product
  let popularityScore := calculatePopularityScore product
  let finalScore :=
    relevanceScore * RANKING_WEIGHTS_RELEVANCE +
    qualityScore * RANKING_WEIGHTS_QUALITY +
    popularityScore * RANKING_WEIGHTS_POPULARITY
  let boost ← applySpecialBoostsChecked product processedQuery
  pure (min 1 (max 0 (finalScore + boost)))

/-! ### `Array.prototype.sort`

Node's V8 engine sorts arrays of fewer than 64 elements by detecting one
initial ascending/strictly-descending run (reversing a descending one) and
then binary-insertion-sorting the remainder — the small-array path of its
TimSort. That algorithm is modelled here; both `rankProducts` sorts go
through it. -/

/-- Length of the continuation of an ascending run:
continue while `c(next, prev) ≥ 0`. -/
def ascRunLen (c : α → α → ℚ) : α → List α → Nat
  | _, [] => 0
  | prev, x :: xs => if 0 ≤ c x prev then ascRunLen c x xs + 1 else 0

/-- Length of the continuation of a strictly descending run:
continue while `c(next, prev) < 0`. -/
def descRunLen (c : α → α → ℚ) : α → List α → Nat
  | _, [] => 0
  | prev, x :: xs => if c x prev < 0 then descRunLen c x xs + 1 else 0

/-- Fuelled binary search for the insertion position of `pivot` in
`sorted[left..right)`: find `left = right` with
`c(pivot, sorted[left-1]) ≥ 0` and `c(pivot, sorted[left]) < 0`. -/
def binSearchGo (c : α → α → ℚ) (pivot : α) (sorted : List α) :
    Nat → Nat → Nat → Nat
  | 0, left, _ => left
  | fuel + 1, left, right =>
    if left < right then
      let mid := left + (right - left) / 2
      if c pivot (sorted.getD mid pivot) < 0 then binSearchGo c pivot sorted fuel left mid
      else binSearchGo c pivot sorted fuel (mid + 1) right
    else left

/-- Insertion position of `pivot` in `sorted`. -/
def binSearchPos (c : α → α → ℚ) (pivot : α) (sorted : List α) : Nat :=
  binSearchGo c pivot sorted sorted.length 0 sorted.length

/-- Binary insertion sort of `rest` into the already-handled prefix `sorted`. -/
def binInsertLoop (c : α → α → ℚ) : List α → List α → List α
  | sorted, [] => sorted
  | sorted, pivot :: rest =>
    binInsertLoop c (sorted.insertIdx (binSearchPos c pivot sorted) pivot) rest

/-- V8's sort for arrays of fewer than 64 elements: make the initial run
ascending, then binary-insertion-sort the rest. -/
def jsSortSmall (c : α → α → ℚ) : List α → List α
  | [] => []
  | [x] => [x]
  | x :: y :: rest =>
    if c y x < 0 then
      let k := descRunLen c y rest
      binInsertLoop c ((x :: y :: rest.take k).reverse) (rest.drop k)
    else
      let k := ascRunLen c y rest
      binInsertLoop c (x :: y :: rest.take k) (rest.drop k)

/-- The scored-product records `rankProducts` sorts. -/
structure Scored where
  product : Product
  score : ℚ
deriving DecidableEq, Repr

/-- The base comparator: `(a, b) => b.score - a.score`. -/
def cmpScoreDesc (a b : Scored) : ℚ := b.score - a.score

/-- The `price_asc` comparator: near-tied scores break by ascending price. -/
def cmpPriceAsc (a b : Scored) : ℚ :=
  if |b.score - a.score| < 0.01 then a.product.price - b.product.price
  else b.score - a.score

/-- The `latest` comparator. -/
def cmpLatest (a b : Scored) : ℚ :=
  if |b.score - a.score| < 0.01 then
    if b.product.isLatest ∧ ¬a.product.isLatest then 1
    else if a.product.isLatest ∧ ¬b.product.isLatest then -1
    else (b.product.productId : ℚ) - (a.product.productId : ℚ)
  else b.score - a.score

/-- The `rating` comparator. -/
def cmpRating (a b : Scored) : ℚ :=
  if |b.score - a.score| < 0.01 then b.product.rating - a.product.rating
  else b.score - a.score

/-- Embeds `RankingEngine.rankProducts`: score, sort by descending score, then
fully re-sort with the intent-specific near-tie comparator. -/
def rankProducts (products : List Product) (query : JStr)
    (processedQuery : ProcessedQuery) : List Product :=
  let productsWithScores :=
    products.map (fun product =>
      Scored.mk product (calculateRankingScore product query processedQuery))
  let productsWithScores := jsSortSmall cmpScoreDesc productsWithScores
  let intent := processedQuery.intent
  let productsWithScores :=
    if intent.sortBy = some (js "price_asc") then jsSortSmall cmpPriceAsc productsWithScores
    else if intent.sortBy = some (js "latest") then jsSortSmall cmpLatest productsWithScores
    else if intent.sortBy = some (js "rating") then jsSortSmall cmpRating productsWithScores
    else productsWithScores
  productsWithScores.map (·.product)

/-! ## SearchService (`services/SearchService.js`) -/

/-- Embeds `SearchService.findMatchingProducts`: the union of the substring,
keyword-AND, keyword-index, brand-index, category-heuristic and (when fewer
than 10 candidates) fuzzy stages, in insertion order. -/
def findMatchingProducts (store : Store) (query : JStr)
    (processedQuery : ProcessedQuery) : List Product :=
  let queryLower := trimL (toLowerL query)
  let correctedQuery := toLowerL processedQuery.corrected
  let keywords :=
    (splitWsL correctedQuery).filter (fun k => decide (k.length > 2) || jsIsAllDigits k)
  let intent := processedQuery.intent
  let allProducts := getAllProductsUnpaginated store
  let matchSet : IdSet :=
    allProducts.foldl (fun matchSet product =>
      let titleLower := toLowerL product.title
      let descLower := toLowerL product.description
      let searchTextLower := toLowerL product.searchText
      if includesL titleLower queryLower || includesL descLower queryLower then
        setAdd matchSet product.productId
      else if keywords.length > 0 then
        if keywords.all (fun keyword => includesL searchTextLower keyword) then
          setAdd matchSet product.productId
        else matchSet
      else matchSet) []
  let matchSet :=
    if keywords.length > 0 then
      keywords.foldl (fun m keyword =>
        (getProductsByKeyword store keyword).foldl (fun m p => setAdd m p.productId) m)
        matchSet
    else matchSet
  let matchSet :=
    if optStrTruthy intent.filterBy.brand then
      (getProductsByBrand store (getS intent.filterBy.brand)).foldl
        (fun m p => setAdd m p.productId) matchSet
    else matchSet
  let categoryKeywords :=
    [js "phone", js "mobile", js "laptop", js "headphone", js "charger",
     js "cover", js "case"]
  let matchSet :=
    match categoryKeywords.find? (fun cat => includesL queryLower cat) with
    | some _ =>
      (getProductsByCategory store (js "mobile")).foldl
        (fun m p => setAdd m p.productId) matchSet
    | none => matchSet
  let matchSet : IdSet :=
    if matchSet.length == 0 || Nat.blt matchSet.length 10 then
      allProducts.foldl (fun m product =>
        let productText := toLowerL product.searchText
        let hasFuzzyMatch :=
          keywords.any (fun keyword =>
            (splitWsL productText).any (fun word =>
              if word.length > 3 ∧ keyword.length > 3 then
                decide (leven word keyword ≤ SEARCH_CONFIG_FUZZY_THRESHOLD)
              else false))
        if hasFuzzyMatch then setAdd m product.productId else m) matchSet
    else matchSet
  matchSet.filterMap (fun id => getProduct store id)

/-- Embeds `SearchService.applyFilters`: the price, color, model and brand
constraints present in `intent.filterBy`, AND-combined. -/
def applyFilters (products : List Product) (processedQuery : ProcessedQuery) :
    List Product :=
  let intent := processedQuery.intent
  let filtered := products
  let filtered :=
    match intent.filterBy.priceRange with
    | some pr =>
      filtered.filter (fun product =>
        if optQTruthy pr.maxPrice ∧ product.price > getQ pr.maxPrice then false
        else if optQTruthy pr.minPrice ∧ product.price < getQ pr.minPrice then false
        else true)
    | none => filtered
  let filtered :=
    if optStrTruthy intent.filterBy.color then
      filtered.filter (fun product =>
        includesL (toLowerL (metaGet product (js "color")))
          (toLowerL (getS intent.filterBy.color)))
    else filtered
  let filtered :=
    if optStrTruthy intent.filterBy.model then
      filtered.filter (fun product =>
        includesL (toLowerL (jsOrS (metaGet product (js "model")) (jsOrS product.title [])))
          (toLowerL (getS intent.filterBy.model)))
    else filtered
  let filtered :=
    if optStrTruthy intent.filterBy.brand then
      filtered.filter (fun product =>
        toLowerL product.brand == toLowerL (getS intent.filterBy.brand))
    else filtered
  filtered

/-- Embeds `arr.slice(0, e)` with JS end-index semantics (negative counts from
the end, clamped). -/
def jsSlice0 (l : List α) (e : Int) : List α :=
  let n : Int := l.length
  let idx := if e < 0 then max (n + e) 0 else min e n
  l.take idx.toNat

/-- Embeds `SearchService.searchProducts`: guard empty/whitespace queries, match,
fall back to the index AND-lookup when no candidate was found, filter,
rank, truncate to `min(limit, MAX_RESULTS)`. -/
def searchProducts (store : Store) (query : JStr) (limit : Int) : List Product :=
  if query.isEmpty || (trimL query).length = 0 then []
  else
    let processedQuery := processQuery query
    let products := findMatchingProducts store query processedQuery
    let products :=
      if products.length = 0 then
        let words :=
          (splitWsL processedQuery.corrected).filter
            (fun w => decide (w.length > 2) || jsIsAllDigits w)
        if words.length > 0 then searchProductsByText store (joinSpace words)
        else products
      else products
    let products := applyFilters products processedQuery
    let products := rankProducts products query processedQuery
    let maxResults := min limit SEARCH_CONFIG_MAX_RESULTS
    jsSlice0 products maxResults

/-! ## Spec-side definitions and concrete instances used by the theorems -/

/-- The specification's description of per-word spelling correction: the
word is replaced by the first vocabulary term (brands before product terms)
at edit distance in (0, 2], provided the word is longer than 3 characters;
otherwise it is unchanged. -/
def specCorrectWord (word : JStr) : JStr :=
  (((brands ++ productTerms).find? (fun term =>
      let distance := leven word term
      decide (distance ≤ 2) && decide (distance > 0) && decide (word.length > 3)))).getD
    word

/-- The claimed tie-break property for `price_asc`: every pair (not just
adjacent ones) of the ranked output whose final scores differ by less than
0.01 appears in non-decreasing price order. -/
def tiePairsPriceOrdered (products : List Product) (query : JStr)
    (processedQuery : ProcessedQuery) : Prop :=
  ∀ i j x y, i < j →
    (rankProducts products query processedQuery).get? i = some x →
    (rankProducts products query processedQuery).get? j = some y →
    |calculateRankingScore x query processedQuery -
      calculateRankingScore y query processedQuery| < 0.01 →
    x.price ≤ y.price

/-- Product data used by the index-invariant scenario: a phone with red
metadata. -/
def c1Data : ProductData :=
  { title := some (js "phone")
    brand := some (js "acme")
    category := some (js "mobile")
    price := some 100
    metadata := some [(js "color", js "red")] }

/-- The store after adding the product and then updating its metadata
color from red to blue. -/
def c1StoreAfter : Store :=
  updateProductMetadata (addProduct emptyStore c1Data) 1 [(js "color", js "blue")]

/-- A minimal product whose ranking score is controlled entirely by its
rating: no text matches, no stock, full return rate, maximal complaint
count, so `finalScore = 0.3 · 0.3 · rating/5 = 0.018 · rating`. -/
def ratingOnlyProduct (id : Nat) (price rating : ℚ) : Product :=
  { productId := id
    title := js "a"
    description := js "a"
    brand := js "b"
    category := js "c"
    price := price
    mrp := price
    sellingPrice := price
    currency := js "Rupee"
    rating := rating
    stock := 0
    metadata := []
    unitsSold := 0
    returnRate := 1
    reviewCount := 0
    complaintCount := 1000
    discountPercentage := 0
    isLatest := false
    popularityScore := 0
    searchKeywords := []
    searchText := js "a" }

/-- A processed query whose intent sorts by ascending price and whose
corrected text matches nothing. -/
def priceAscQuery : ProcessedQuery :=
  { original := js "qq"
    normalized := js "qq"
    corrected := js "qq"
    intent := { sortBy := some (js "price_asc"), filterBy := {}, searchTerms := [] } }

/-- The four products of the tie-break counterexample, in candidate order:
scores `0, 0, 1/250, 3/250` and prices `1, 0, 1, 2`. -/
def tieBreakProducts : List Product :=
  [ratingOnlyProduct 1 1 0, ratingOnlyProduct 2 0 0,
   ratingOnlyProduct 3 1 (2/9), ratingOnlyProduct 4 2 (2/3)]

/-- The product of the price-filter witness: a 400-rupee TV whose title
contains the model token "500". -/
def tvProduct : Product := { ratingOnlyProduct 1 400 0 with title := js "tv 500" }

/-! ## Helper lemmas -/

/-- Auxiliary fact shared by several proofs: `extractPriceRange` constructs
its result with `minPrice := none` unconditionally. -/
theorem extractPriceRange_minPrice (query : JStr) :
    (extractPriceRange query).minPrice = none := rfl

/-- Finding in an appended list tries the first list first. -/
theorem find?_append {α : Type} {p : α → Bool} :
    ∀ l₁ l₂ : List α, (l₁ ++ l₂).find? p = ((l₁.find? p).orElse fun _ => l₂.find? p)
  | [], _ => rfl
  | a :: l₁, l₂ => by
    by_cases h : p a <;> simp [List.find?_cons, h, find?_append l₁ l₂]

/-- The source's two sequential vocabulary loops coincide with a single
first-match search over the concatenated vocabularies. -/
theorem correctWord_eq_specCorrectWord (word : JStr) :
    correctWord word = specCorrectWord word := by
  unfold correctWord specCorrectWord
  rw [find?_append]
  cases brands.find? (fun term =>
      let distance := leven word term
      decide (distance ≤ 2) && decide (distance > 0) && decide (word.length > 3)) with
  | some b => rfl
  | none =>
    cases productTerms.find? (fun term =>
        let distance := leven word term
        decide (distance ≤ 2) && decide (distance > 0) && decide (word.length > 3)) with
    | some t => rfl
    | none => rfl

/-- Whenever the processed intent carries a price range, its `maxPrice` is
truthy (present and nonzero): `extractIntent` only attaches the range when
one of its components is truthy, and `minPrice` never is. -/
theorem processQuery_priceRange_max_truthy (query : JStr) (pr : PriceRange)
    (h : (processQuery query).intent.filterBy.priceRange = some pr) :
    optQTruthy pr.maxPrice = true := by
  unfold processQuery at h
  split at h
  · simp [emptyIntent] at h
  · unfold extractIntent at h
    simp only at h
    set q := correctSpelling (translateHinglish (normalizeQuery query)) with hq
    have hmin : optQTruthy (extractPriceRange q).minPrice = false := by
      rw [extractPriceRange_minPrice]; rfl
    by_cases htr : optQTruthy (extractPriceRange q).maxPrice
    · rw [if_pos] at h
      · cases h; exact htr
      · rw [hmin, htr]; rfl
    · rw [if_neg] at h
      · cases h
      · rw [hmin, Bool.false_or]; exact htr

/-- Whenever the processed intent carries a price range, its `minPrice` is
`none` (no extraction branch writes it). -/
theorem processQuery_priceRange_min_none (query : JStr) (pr : PriceRange)
    (h : (processQuery query).intent.filterBy.priceRange = some pr) :
    pr.minPrice = none := by
  unfold processQuery at h
  split at h
  · simp [emptyIntent] at h
  · unfold extractIntent at h
    simp only at h
    split at h
    · cases h
      exact extractPriceRange_minPrice _
    · cases h

/-- Membership in a conditionally filtered list implies membership in the
unfiltered one. -/
theorem mem_of_mem_ite_filter {α : Type} {p : α → Bool} {c : Prop} [Decidable c]
    {l : List α} {x : α} (h : x ∈ if c then l.filter p else l) : x ∈ l := by
  split at h
  · exact List.mem_of_mem_filter h
  · exact h

/-- Length bound for the JS slice. -/
theorem length_jsSlice0_le {α : Type} (l : List α) (e : Int) (he : 0 ≤ e) :
    ((jsSlice0 l e).length : Int) ≤ e := by
  have hunf : jsSlice0 l e =
      l.take (if e < 0 then max ((l.length : Int) + e) 0 else min e (l.length : Int)).toNat :=
    rfl
  rw [hunf, if_neg (by omega : ¬ e < 0)]
  simp only [List.length_take]
  have h1 : (min e (l.length : Int)).toNat ≤ e.toNat := by
    apply Int.toNat_le_toNat; omega
  have h2 : (e.toNat : Int) = e := Int.toNat_of_nonneg he
  have h3 : min (min e (l.length : Int)).toNat l.length ≤ (min e (l.length : Int)).toNat :=
    min_le_left _ _
  omega

/-! ### Properties of the modelled `Array.prototype.sort` -/

/-- Specification of the fuelled binary search: with enough fuel, the result
lies in `[left, right]`, the element before it (if any) compares `≥ 0`
against the pivot and the element at it (if any) compares `< 0`. -/
theorem binSearchGo_spec {α : Type} (c : α → α → ℚ) (pivot : α) (sorted : List α)
    (fuel : Nat) :
    ∀ left right, left ≤ right → right ≤ sorted.length → right - left ≤ fuel →
      (0 < left → 0 ≤ c pivot (sorted.getD (left - 1) pivot)) →
      (right < sorted.length → c pivot (sorted.getD right pivot) < 0) →
      (left ≤ binSearchGo c pivot sorted fuel left right ∧
        binSearchGo c pivot sorted fuel left right ≤ right) ∧
      (0 < binSearchGo c pivot sorted fuel left right →
        0 ≤ c pivot (sorted.getD (binSearchGo c pivot sorted fuel left right - 1) pivot)) ∧
      (binSearchGo c pivot sorted fuel left right < sorted.length →
        c pivot (sorted.getD (binSearchGo c pivot sorted fuel left right) pivot) < 0) := by
  induction fuel with
  | zero =>
    intro left right h1 h2 hf hL hR
    have heq : left = right := by omega
    simp only [binSearchGo]
    subst heq
    exact ⟨⟨le_refl _, le_refl _⟩, hL, hR⟩
  | succ n ih =>
    intro left right h1 h2 hf hL hR
    simp only [binSearchGo]
    by_cases hlt : left < right
    · rw [if_pos hlt]
      by_cases hc : c pivot (sorted.getD (left + (right - left) / 2) pivot) < 0
      · rw [if_pos hc]
        have hres := ih left (left + (right - left) / 2) (by omega) (by omega) (by omega) hL
          (fun _ => hc)
        exact ⟨⟨hres.1.1, hres.1.2.trans (by omega)⟩, hres.2.1, hres.2.2⟩
      · rw [if_neg hc]
        have hmid : 0 ≤ c pivot (sorted.getD (left + (right - left) / 2) pivot) :=
          le_of_not_lt hc
        have hres := ih (left + (right - left) / 2 + 1) right (by omega) h2 (by omega)
          (fun _ => by simpa using hmid) hR
        exact ⟨⟨by omega, hres.1.2⟩, hres.2.1, hres.2.2⟩
    · rw [if_neg hlt]
      have heq : left = right := by omega
      subst heq
      exact ⟨⟨le_refl _, le_refl _⟩, hL, hR⟩

/-- Specification of the insertion position. -/
theorem binSearchPos_spec {α : Type} (c : α → α → ℚ) (pivot : α) (sorted : List α) :
    binSearchPos c pivot sorted ≤ sorted.length ∧
    (0 < binSearchPos c pivot sorted →
      0 ≤ c pivot (sorted.getD (binSearchPos c pivot sorted - 1) pivot)) ∧
    (binSearchPos c pivot sorted < sorted.length →
      c pivot (sorted.getD (binSearchPos c pivot sorted) pivot) < 0) := by
  have h := binSearchGo_spec c pivot sorted sorted.length 0 sorted.length
    (Nat.zero_le _) (le_refl _) (by omega) (by omega) (by omega)
  exact ⟨h.1.2, h.2.1, h.2.2⟩

/-- Inserting at a position whose neighbours relate to the new element
preserves a chain. -/
theorem chain'_insertIdx {α : Type} {R : α → α → Prop} (x : α) :
    ∀ (l : List α) (pos : Nat), pos ≤ l.length → List.Chain' R l →
      (0 < pos → R (l.getD (pos - 1) x) x) →
      (pos < l.length → R x (l.getD pos x)) →
      List.Chain' R (l.insertIdx pos x)
  | l, 0, _, hchain, _, hR => by
    rw [List.insertIdx_zero]
    rw [List.chain'_cons']
    refine ⟨?_, hchain⟩
    intro y hy
    cases l with
    | nil => simp at hy
    | cons a l' =>
      simp at hy
      subst hy
      simpa using hR (by simp)
  | [], pos + 1, hp, _, _, _ => by simp at hp
  | a :: l', pos + 1, hp, hchain, hL, hR => by
    rw [List.insertIdx_succ_cons]
    rw [List.chain'_cons']
    constructor
    · intro y hy
      cases pos with
      | zero =>
        cases l' with
        | nil => simp at hy; subst hy; simpa using hL (by omega)
        | cons b l'' => simp [List.insertIdx_zero] at hy; subst hy; simpa using hL (by omega)
      | succ q =>
        cases l' with
        | nil => simp at hp
        | cons b l'' =>
          rw [List.insertIdx_succ_cons] at hy
          simp at hy
          subst hy
          exact (List.chain'_cons'.mp hchain).1 b (by simp)
    · exact chain'_insertIdx x l' pos (by simpa using hp)
        ((List.chain'_cons'.mp hchain).2)
        (fun h0 => by
          have := hL (by omega)
          cases pos with
          | zero => omega
          | succ q => simpa using this)
        (fun hlen => by simpa using hR (by simpa using Nat.succ_lt_succ hlen))

/-- The binary-insertion loop preserves the sortedness chain, given an
antisymmetric comparator. -/
theorem chain'_binInsertLoop {α : Type} (c : α → α → ℚ)
    (hA : ∀ a b, c a b = -(c b a)) :
    ∀ (rest sorted : List α), List.Chain' (fun a b => c a b ≤ 0) sorted →
      List.Chain' (fun a b => c a b ≤ 0) (binInsertLoop c sorted rest)
  | [], _, h => h
  | pivot :: rest, sorted, h => by
    apply chain'_binInsertLoop c hA rest
    obtain ⟨hb, hl, hr⟩ := binSearchPos_spec c pivot sorted
    apply chain'_insertIdx pivot sorted _ hb h
    · intro hpos
      have h1 := hl hpos
      rw [hA]
      linarith
    · intro hpos
      exact le_of_lt (hr hpos)

/-- The ascending initial run is a chain for the comparator order. -/
theorem chain'_ascRun {α : Type} (c : α → α → ℚ) (hA : ∀ a b, c a b = -(c b a)) :
    ∀ (l : List α) (prev : α),
      List.Chain' (fun a b => c a b ≤ 0) (prev :: l.take (ascRunLen c prev l))
  | [], _ => by simp [ascRunLen]
  | x :: xs, prev => by
    unfold ascRunLen
    split
    · rw [List.take_succ_cons, List.chain'_cons]
      constructor
      · rw [hA]; linarith
      · exact chain'_ascRun c hA xs x
    · simp

/-- The strictly descending initial run, read backwards, is a chain. -/
theorem chain'_descRun {α : Type} (c : α → α → ℚ) :
    ∀ (l : List α) (prev : α),
      List.Chain' (fun a b => c b a < 0) (prev :: l.take (descRunLen c prev l))
  | [], _ => by simp [descRunLen]
  | x :: xs, prev => by
    unfold descRunLen
    split
    · rw [List.take_succ_cons, List.chain'_cons]
      exact ⟨by assumption, chain'_descRun c xs x⟩
    · simp

/-- The modelled JS sort produces a list in which every adjacent pair is
ordered by the comparator, provided the comparator is antisymmetric. -/
theorem chain'_jsSortSmall {α : Type} (c : α → α → ℚ)
    (hA : ∀ a b, c a b = -(c b a)) :
    ∀ l : List α, List.Chain' (fun a b => c a b ≤ 0) (jsSortSmall c l)
  | [] => by simp [jsSortSmall]
  | [x] => by simp [jsSortSmall]
  | x :: y :: rest => by
    simp only [jsSortSmall]
    split
    · apply chain'_binInsertLoop c hA
      rw [List.chain'_reverse]
      have hd := chain'_descRun c rest y
      rw [List.chain'_cons]
      constructor
      · show c y x ≤ 0
        exact le_of_lt (by assumption)
      · exact hd.imp (fun a b hab => le_of_lt hab)
    · apply chain'_binInsertLoop c hA
      rw [List.chain'_cons]
      constructor
      · rw [hA]
        have h0 : ¬ c y x < 0 := by assumption
        linarith [le_of_not_lt h0]
      · exact chain'_ascRun c hA rest y

/-- The binary-insertion loop permutes its two inputs' concatenation. -/
theorem perm_binInsertLoop {α : Type} (c : α → α → ℚ) :
    ∀ (rest sorted : List α), (binInsertLoop c sorted rest).Perm (sorted ++ rest)
  | [], sorted => by simp [binInsertLoop]
  | pivot :: rest, sorted => by
    unfold binInsertLoop
    refine (perm_binInsertLoop c rest _).trans ?_
    refine (List.Perm.append_right rest
      (List.perm_insertIdx pivot sorted (binSearchPos_spec c pivot sorted).1)).trans ?_
    exact List.perm_middle.symm

/-- The modelled JS sort returns a permutation of its input. -/
theorem perm_jsSortSmall {α : Type} (c : α → α → ℚ) :
    ∀ l : List α, (jsSortSmall c l).Perm l
  | [] => by simp [jsSortSmall]
  | [x] => by simp [jsSortSmall]
  | x :: y :: rest => by
    simp only [jsSortSmall]
    split
    · refine (perm_binInsertLoop c _ _).trans ?_
      have h1 : ((x :: y :: rest.take (descRunLen c y rest)).reverse ++
          rest.drop (descRunLen c y rest)).Perm
          ((x :: y :: rest.take (descRunLen c y rest)) ++
            rest.drop (descRunLen c y rest)) :=
        List.Perm.append_right _ (List.reverse_perm _)
      refine h1.trans ?_
      have h2 : (x :: y :: rest.take (descRunLen c y rest)) ++
          rest.drop (descRunLen c y rest) = x :: y :: rest := by
        simp [List.take_append_drop]
      rw [h2]
    · refine (perm_binInsertLoop c _ _).trans ?_
      have h2 : (x :: y :: rest.take (ascRunLen c y rest)) ++
          rest.drop (ascRunLen c y rest) = x :: y :: rest := by
        simp [List.take_append_drop]
      rw [h2]

/-- The `price_asc` comparator is antisymmetric. -/
theorem cmpPriceAsc_antisymm (a b : Scored) : cmpPriceAsc a b = -(cmpPriceAsc b a) := by
  unfold cmpPriceAsc
  by_cases h : |b.score - a.score| < 0.01
  · rw [if_pos h, if_pos (by rwa [abs_sub_comm])]
    ring
  · rw [if_neg h, if_neg (by rwa [abs_sub_comm])]
    ring

/-- A chain relates the elements at consecutive positions. -/
theorem chain'_get? {α : Type} {R : α → α → Prop} :
    ∀ {l : List α}, List.Chain' R l → ∀ {i : Nat} {x y : α},
      l.get? i = some x → l.get? (i + 1) = some y → R x y := by
  intro l
  induction l with
  | nil => intro _ i x y hx _; simp at hx
  | cons a l ih =>
    intro h i x y hx hy
    cases i with
    | zero =>
      simp at hx
      subst hx
      cases l with
      | nil => simp at hy
      | cons b l' =>
        simp at hy
        subst hy
        exact (List.chain'_cons.mp h).1
    | succ j =>
      have hx2 : l.get? j = some x := by simpa using hx
      have hy2 : l.get? (j + 1) = some y := by simpa using hy
      exact ih h.tail hx2 hy2

/-! ### Division-instrumentation lemmas -/

/-- Folding an Option-valued function that never fails equals the plain fold. -/
theorem foldlM_option_eq_foldl {α β : Type} (f : β → α → Option β) (g : β → α → β)
    (hfg : ∀ acc x, f acc x = some (g acc x)) :
    ∀ (l : List α) (init : β), l.foldlM f init = some (l.foldl g init)
  | [], _ => rfl
  | x :: l, init => by
    simp only [List.foldlM, List.foldl, hfg, Option.bind_eq_bind, Option.some_bind]
    exact foldlM_option_eq_foldl f g hfg l (g init x)

/-- A division with a nonzero divisor never fails. -/
theorem safeDiv_of_ne (a b : ℚ) (h : b ≠ 0) : safeDiv a b = some (a / b) := by
  unfold safeDiv
  rw [if_neg h]

/-- A nonempty filtered sublist forces a nonzero (cast) source length. -/
theorem filterLen_ne_zero {l : List JStr} {p : JStr → Bool}
    (h : 0 < (l.filter p).length) : ((l.length : ℚ)) ≠ 0 := by
  have h2 : (l.filter p).length ≤ l.length := List.length_filter_le _ _
  have h3 : 0 < l.length := by omega
  positivity

/-- A truthy optional number is nonzero. -/
theorem getQ_ne_zero {o : Option ℚ} (h : optQTruthy o = true) : getQ o ≠ 0 := by
  cases o with
  | none => simp [optQTruthy] at h
  | some x =>
    intro hc
    rw [show getQ (some x) = x from rfl] at hc
    rw [hc] at h
    simp [optQTruthy] at h

/-- The instrumented fuzzy match never fails and agrees with the plain one:
the per-keyword divisor `keywords.length` is only used inside an iteration
over `keywords`, which implies the list is nonempty. -/
theorem calculateFuzzyMatchChecked_eq (product : Product) (keywords : List JStr) :
    calculateFuzzyMatchChecked product keywords =
      some (calculateFuzzyMatch product keywords) := by
  simp only [calculateFuzzyMatchChecked, calculateFuzzyMatch]
  by_cases hk : keywords = []
  · subst hk; rfl
  · have hlen : ((keywords.length : ℚ)) ≠ 0 := by
      have := List.length_pos.mpr hk
      positivity
    rw [foldlM_option_eq_foldl _ (fun matchScore keyword =>
        (splitWsL (toLowerL product.searchText)).foldl (fun ms word =>
          if word.length > 3 ∧ keyword.length > 3 then
            let distance := leven word keyword
            if distance ≤ SEARCH_CONFIG_FUZZY_THRESHOLD ∧ distance > 0 then
              ms + (1 - (distance : ℚ) / (SEARCH_CONFIG_FUZZY_THRESHOLD : ℚ))
                / (keywords.length : ℚ)
            else ms
          else ms) matchScore)]
    · simp
    · intro acc kw
      apply foldlM_option_eq_foldl
      intro ms w
      simp only [safeDiv_of_ne _ _ hlen,
        safeDiv_of_ne _ _
          (show ((SEARCH_CONFIG_FUZZY_THRESHOLD : Nat) : ℚ) ≠ 0 by
            norm_num [SEARCH_CONFIG_FUZZY_THRESHOLD])]
      split_ifs <;> simp_all

/-- The instrumented title contribution never fails: its divisor is only
reached when some keyword matched the title. -/
theorem relTitlePartChecked_eq (titleLower queryLower : JStr) (keywords : List JStr)
    (score : ℚ) :
    relTitlePartChecked titleLower queryLower keywords score =
      some (if includesL titleLower queryLower then score + RELEVANCE_WEIGHTS_TITLE_MATCH
        else if (keywords.filter (fun k => includesL titleLower k)).length > 0 then
          score + RELEVANCE_WEIGHTS_TITLE_MATCH *
            (((keywords.filter (fun k => includesL titleLower k)).length : ℚ) /
              (keywords.length : ℚ))
        else score) := by
  unfold relTitlePartChecked
  split_ifs with h1 h2
  · rfl
  · rw [safeDiv_of_ne _ _ (filterLen_ne_zero h2)]
    rfl
  · rfl

/-- The instrumented keyword-overlap contribution never fails. -/
theorem relCountPartChecked_eq (weight : ℚ) (text : JStr) (keywords : List JStr)
    (score : ℚ) :
    relCountPartChecked weight text keywords score =
      some (if (keywords.filter (fun k => includesL text k)).length > 0 then
          score + weight * (((keywords.filter (fun k => includesL text k)).length : ℚ) /
            (keywords.length : ℚ))
        else score) := by
  unfold relCountPartChecked
  split_ifs with h1
  · rw [safeDiv_of_ne _ _ (filterLen_ne_zero h1)]
    rfl
  · rfl

/-- The instrumented price boost never fails: its divisor is truthy-guarded. -/
theorem boostPricePartChecked_eq (product : Product) (priceRange : Option PriceRange)
    (boost : ℚ) :
    boostPricePartChecked product priceRange boost =
      some (match priceRange with
        | some pr =>
          if optQTruthy pr.maxPrice ∧ product.price ≤ getQ pr.maxPrice then
            boost + min 0.2 ((getQ pr.maxPrice - product.price) / getQ pr.maxPrice * 0.2)
          else boost
        | none => boost) := by
  unfold boostPricePartChecked
  cases priceRange with
  | none => rfl
  | some pr =>
    dsimp only
    split_ifs with h1
    · rw [safeDiv_of_ne _ _ (getQ_ne_zero h1.1)]
      rfl
    · rfl

/-- The instrumented relevance score never fails and agrees with the plain
one. -/
theorem calculateRelevanceScoreChecked_eq (product : Product) (query : JStr)
    (processedQuery : ProcessedQuery) :
    calculateRelevanceScoreChecked product query processedQuery =
      some (calculateRelevanceScore product query processedQuery) := by
  simp only [calculateRelevanceScoreChecked, relTitlePartChecked_eq,
    relCountPartChecked_eq, calculateFuzzyMatchChecked_eq, Option.some_bind]
  rfl

/-- The instrumented boosts never fail and agree with the plain ones. -/
theorem applySpecialBoostsChecked_eq (product : Product)
    (processedQuery : ProcessedQuery) :
    applySpecialBoostsChecked product processedQuery =
      some (applySpecialBoosts product processedQuery) := by
  simp only [applySpecialBoostsChecked, boostPricePartChecked_eq, Option.some_bind]
  rfl

/-! ### Concrete evaluation of the tie-break scenario -/

/-- A rating-0 `ratingOnlyProduct` scores 0 for the inert query. -/
theorem score_rating0 (id : Nat) (price : ℚ) :
    calculateRankingScore (ratingOnlyProduct id price 0) (js "qq") priceAscQuery = 0 := by
  have h1 : List.filter (fun k => decide (2 < List.length k))
      (splitWsL (toLowerL (js "qq"))) = [] := by decide
  simp +decide only [calculateRankingScore, calculateRelevanceScore, calculateQualityScore,
    calculatePopularityScore, applySpecialBoosts, calculateFuzzyMatch, ratingOnlyProduct,
    priceAscQuery, metaGet, mapGet, getS, getQ, optStrTruthy, optQTruthy, jsOrS,
    RANKING_WEIGHTS_RELEVANCE, RANKING_WEIGHTS_QUALITY, RANKING_WEIGHTS_POPULARITY,
    RELEVANCE_WEIGHTS_TITLE_MATCH, RELEVANCE_WEIGHTS_DESCRIPTION_MATCH,
    RELEVANCE_WEIGHTS_METADATA_MATCH, RELEVANCE_WEIGHTS_EXACT_MATCH_BONUS,
    RELEVANCE_WEIGHTS_BRAND_MATCH_BONUS, RELEVANCE_WEIGHTS_MODEL_MATCH_BONUS,
    QUALITY_WEIGHTS_RATING, QUALITY_WEIGHTS_REVIEW_COUNT, QUALITY_WEIGHTS_RETURN_RATE,
    QUALITY_WEIGHTS_COMPLAINT_COUNT, QUALITY_WEIGHTS_STOCK_AVAILABILITY,
    POPULARITY_WEIGHTS_UNITS_SOLD, POPULARITY_WEIGHTS_DISCOUNT_PERCENTAGE,
    POPULARITY_WEIGHTS_IS_LATEST, SEARCH_CONFIG_MIN_STOCK_FOR_BOOST,
    SEARCH_CONFIG_FUZZY_THRESHOLD, h1, List.foldl, List.filter, List.length]
  norm_num [min_def, max_def]

/-- A rating-2/9 `ratingOnlyProduct` scores `0.018 · 2/9 = 1/250`. -/
theorem score_rating29 (id : Nat) (price : ℚ) :
    calculateRankingScore (ratingOnlyProduct id price (2/9)) (js "qq") priceAscQuery
      = 1/250 := by
  have h1 : List.filter (fun k => decide (2 < List.length k))
      (splitWsL (toLowerL (js "qq"))) = [] := by decide
  simp +decide only [calculateRankingScore, calculateRelevanceScore, calculateQualityScore,
    calculatePopularityScore, applySpecialBoosts, calculateFuzzyMatch, ratingOnlyProduct,
    priceAscQuery, metaGet, mapGet, getS, getQ, optStrTruthy, optQTruthy, jsOrS,
    RANKING_WEIGHTS_RELEVANCE, RANKING_WEIGHTS_QUALITY, RANKING_WEIGHTS_POPULARITY,
    RELEVANCE_WEIGHTS_TITLE_MATCH, RELEVANCE_WEIGHTS_DESCRIPTION_MATCH,
    RELEVANCE_WEIGHTS_METADATA_MATCH, RELEVANCE_WEIGHTS_EXACT_MATCH_BONUS,
    RELEVANCE_WEIGHTS_BRAND_MATCH_BONUS, RELEVANCE_WEIGHTS_MODEL_MATCH_BONUS,
    QUALITY_WEIGHTS_RATING, QUALITY_WEIGHTS_REVIEW_COUNT, QUALITY_WEIGHTS_RETURN_RATE,
    QUALITY_WEIGHTS_COMPLAINT_COUNT, QUALITY_WEIGHTS_STOCK_AVAILABILITY,
    POPULARITY_WEIGHTS_UNITS_SOLD, POPULARITY_WEIGHTS_DISCOUNT_PERCENTAGE,
    POPULARITY_WEIGHTS_IS_LATEST, SEARCH_CONFIG_MIN_STOCK_FOR_BOOST,
    SEARCH_CONFIG_FUZZY_THRESHOLD, h1, List.foldl, List.filter, List.length]
  norm_num [min_def, max_def]

/-- A rating-2/3 `ratingOnlyProduct` scores `0.018 · 2/3 = 3/250`. -/
theorem score_rating23 (id : Nat) (price : ℚ) :
    calculateRankingScore (ratingOnlyProduct id price (2/3)) (js "qq") priceAscQuery
      = 3/250 := by
  have h1 : List.filter (fun k => decide (2 < List.length k))
      (splitWsL (toLowerL (js "qq"))) = [] := by decide
  simp +decide only [calculateRankingScore, calculateRelevanceScore, calculateQualityScore,
    calculatePopularityScore, applySpecialBoosts, calculateFuzzyMatch, ratingOnlyProduct,
    priceAscQuery, metaGet, mapGet, getS, getQ, optStrTruthy, optQTruthy, jsOrS,
    RANKING_WEIGHTS_RELEVANCE, RANKING_WEIGHTS_QUALITY, RANKING_WEIGHTS_POPULARITY,
    RELEVANCE_WEIGHTS_TITLE_MATCH, RELEVANCE_WEIGHTS_DESCRIPTION_MATCH,
    RELEVANCE_WEIGHTS_METADATA_MATCH, RELEVANCE_WEIGHTS_EXACT_MATCH_BONUS,
    RELEVANCE_WEIGHTS_BRAND_MATCH_BONUS, RELEVANCE_WEIGHTS_MODEL_MATCH_BONUS,
    QUALITY_WEIGHTS_RATING, QUALITY_WEIGHTS_REVIEW_COUNT, QUALITY_WEIGHTS_RETURN_RATE,
    QUALITY_WEIGHTS_COMPLAINT_COUNT, QUALITY_WEIGHTS_STOCK_AVAILABILITY,
    POPULARITY_WEIGHTS_UNITS_SOLD, POPULARITY_WEIGHTS_DISCOUNT_PERCENTAGE,
    POPULARITY_WEIGHTS_IS_LATEST, SEARCH_CONFIG_MIN_STOCK_FOR_BOOST,
    SEARCH_CONFIG_FUZZY_THRESHOLD, h1, List.foldl, List.filter, List.length]
  norm_num [min_def, max_def]

/-- The ranked output of the tie-break scenario, computed end to end:
score-descending sort gives `[P4, P3, P1, P2]`; the `price_asc` re-sort
reverses a detected "descending" prefix and binary-inserts the rest,
producing `[P3, P4, P2, P1]`. -/
theorem tieBreak_rank_eval :
    rankProducts tieBreakProducts (js "qq") priceAscQuery =
      [ratingOnlyProduct 3 1 (2/9), ratingOnlyProduct 4 2 (2/3),
       ratingOnlyProduct 2 0 0, ratingOnlyProduct 1 1 0] := by
  have hmap : tieBreakProducts.map (fun p =>
      Scored.mk p (calculateRankingScore p (js "qq") priceAscQuery)) =
      [Scored.mk (ratingOnlyProduct 1 1 0) 0, Scored.mk (ratingOnlyProduct 2 0 0) 0,
       Scored.mk (ratingOnlyProduct 3 1 (2/9)) (1/250),
       Scored.mk (ratingOnlyProduct 4 2 (2/3)) (3/250)] := by
    simp [tieBreakProducts, score_rating0, score_rating29, score_rating23]
  have hs1 : jsSortSmall cmpScoreDesc
      [Scored.mk (ratingOnlyProduct 1 1 0) 0, Scored.mk (ratingOnlyProduct 2 0 0) 0,
       Scored.mk (ratingOnlyProduct 3 1 (2/9)) (1/250),
       Scored.mk (ratingOnlyProduct 4 2 (2/3)) (3/250)] =
      [Scored.mk (ratingOnlyProduct 4 2 (2/3)) (3/250),
       Scored.mk (ratingOnlyProduct 3 1 (2/9)) (1/250),
       Scored.mk (ratingOnlyProduct 1 1 0) 0, Scored.mk (ratingOnlyProduct 2 0 0) 0] := by
    norm_num [jsSortSmall, ascRunLen, descRunLen, binInsertLoop, binSearchPos,
      binSearchGo, cmpScoreDesc, List.getD]
  have hs2 : jsSortSmall cmpPriceAsc
      [Scored.mk (ratingOnlyProduct 4 2 (2/3)) (3/250),
       Scored.mk (ratingOnlyProduct 3 1 (2/9)) (1/250),
       Scored.mk (ratingOnlyProduct 1 1 0) 0, Scored.mk (ratingOnlyProduct 2 0 0) 0] =
      [Scored.mk (ratingOnlyProduct 3 1 (2/9)) (1/250),
       Scored.mk (ratingOnlyProduct 4 2 (2/3)) (3/250),
       Scored.mk (ratingOnlyProduct 2 0 0) 0, Scored.mk (ratingOnlyProduct 1 1 0) 0] := by
    norm_num [jsSortSmall, ascRunLen, descRunLen, binInsertLoop, binSearchPos,
      binSearchGo, cmpPriceAsc, List.getD, ratingOnlyProduct, abs]
  simp only [rankProducts]
  rw [hmap]
  rw [if_pos (show priceAscQuery.intent.sortBy = some (js "price_asc") from rfl)]
  rw [hs1, hs2]
  simp

/-! ## Claim theorems -/

/-- C1 (code bug): after `updateProductMetadata` changes the only metadata
color from "red" to "blue", the keyword index still files product 1 under
"red", even though the product's recomputed `searchKeywords` are
`[phone, acme, mobile, blue]` — the invariant that the inverted indexes
mirror the current field values is broken, because `updateSearchText` runs
before `removeFromIndexes` and the removal therefore uses the *new*
keywords, never unfiling the stale ones. -/
theorem c1_stale_keyword_after_metadata_update :
    mapGet c1StoreAfter.keywordIndex (js "red") = some [1] ∧
    (getProduct c1StoreAfter 1).map (fun p => p.searchKeywords) =
      some [js "phone", js "acme", js "mobile", js "blue"] :=
  ⟨by decide, by decide⟩

/-- C2 (code bug): in price extraction the query "5 lakh" is assigned
`maxPrice = 5000`, not the claimed 5 · 100000 = 500000: the match string
"5 lakh" contains the letter "k", so the `includes("k")` test multiplies
by 1000 before the lakh branch is ever reached. The spelling "5 lac"
(no "k") gets the documented ×100000. -/
theorem c2_lakh_multiplier_bug :
    (extractPriceRange (js "5 lakh")).maxPrice = some 5000 ∧
    (extractPriceRange (js "5 lac")).maxPrice = some 500000 := by
  constructor
  · have h : (extractPriceRange (js "5 lakh")).maxPrice = some ((5 : ℚ) * 1000) := rfl
    rw [h]; norm_num
  · have h : (extractPriceRange (js "5 lac")).maxPrice = some ((5 : ℚ) * 100000) := rfl
    rw [h]; norm_num

/-- C7: no extraction path assigns a minimum price — `minPrice` is `null`
for every query string, so `intent.filterBy.priceRange.min` is never
populated. -/
theorem c7_min_price_never_set (query : JStr) :
    (extractPriceRange query).minPrice = none := rfl

/-- C8: an empty or whitespace-only query makes the search pipeline return
an empty result list (the guard at the top of `searchProducts`); the
embedding is total, so no error is raised. -/
theorem c8_empty_query_returns_empty (store : Store) (query : JStr) (limit : Int)
    (h : query = [] ∨ (trimL query).length = 0) :
    searchProducts store query limit = [] := by
  unfold searchProducts
  rcases h with h | h
  · rw [if_pos]; subst h; simp
  · rw [if_pos]; simp [h]

/-- Witness for C8 at the whitespace-only query `" "`. -/
theorem c8_empty_query_returns_empty_witness :
    searchProducts emptyStore (js " ") 5 = [] :=
  c8_empty_query_returns_empty emptyStore (js " ") 5 (Or.inr (by decide))

/-- C6: after the misspelling-dictionary substitutions, the per-word pass
replaces each word of length > 3 at edit distance in (0, 2] of a vocabulary
term by the first such term — brands checked before product terms — and
leaves every other word unchanged (`specCorrectWord` is exactly that
description). -/
theorem c6_spelling_correction_characterization (query : JStr) :
    correctSpelling query =
      joinSpace ((splitWsL (SPELLING_CORRECTIONS.foldl
        (fun s kv => replaceWord kv.1 kv.2 s) (toLowerL query))).map specCorrectWord) := by
  unfold correctSpelling
  have h : correctWord = specCorrectWord := funext correctWord_eq_specCorrectWord
  rw [h]

/-- C4: for every catalog, query and requested nonnegative limit, the
search pipeline returns at most `min(limit, 100)` results (the validator
only admits limits in [1, 100], so nonnegativity covers every requestable
limit). -/
theorem c4_result_length_le_min_limit_cap (store : Store) (query : JStr) (limit : Int)
    (h : 0 ≤ limit) :
    ((searchProducts store query limit).length : Int) ≤
      min limit SEARCH_CONFIG_MAX_RESULTS := by
  unfold searchProducts
  have hcap : (0 : Int) ≤ min limit SEARCH_CONFIG_MAX_RESULTS := by
    unfold SEARCH_CONFIG_MAX_RESULTS; omega
  split
  · simpa using hcap
  · exact length_jsSlice0_le _ _ hcap

/-- Witness for C4 at an empty catalog, query "abc", limit 5. -/
theorem c4_result_length_le_min_limit_cap_witness :
    (0 : Int) ≤ 5 ∧
      ((searchProducts emptyStore (js "abc") 5).length : Int) ≤
        min 5 SEARCH_CONFIG_MAX_RESULTS :=
  ⟨by decide, c4_result_length_le_min_limit_cap emptyStore (js "abc") 5 (by decide)⟩

/-- C5: every product retained by the Filter stage satisfies the extracted
maximum price: if the processed intent carries `priceRange.max = m`, then a
retained product's price is at most `m`. -/
theorem c5_price_filter_max_respected (query : JStr) (products : List Product)
    (p : Product) (pr : PriceRange) (m : ℚ)
    (hmem : p ∈ applyFilters products (processQuery query))
    (hpr : (processQuery query).intent.filterBy.priceRange = some pr)
    (hmax : pr.maxPrice = some m) :
    p.price ≤ m := by
  have htr : optQTruthy pr.maxPrice = true :=
    processQuery_priceRange_max_truthy query pr hpr
  have hmin : pr.minPrice = none :=
    processQuery_priceRange_min_none query pr hpr
  have hm0 : m ≠ 0 := by
    intro hc
    rw [hmax, hc] at htr
    simp [optQTruthy] at htr
  simp only [applyFilters] at hmem
  rw [hpr] at hmem
  have hmem2 := mem_of_mem_ite_filter (mem_of_mem_ite_filter (mem_of_mem_ite_filter hmem))
  have hp := (List.mem_filter.mp hmem2).2
  simp only [hmax, hmin, optQTruthy, getQ, if_neg hm0] at hp
  by_cases hgt : p.price ≤ m
  · exact hgt
  · exfalso
    have hgt2 : p.price > m := lt_of_not_ge hgt
    simp [hgt2] at hp

/-- C9: no division in the ranking math can divide by zero — the
instrumented scorer, in which every division reports a zero divisor instead
of defaulting, succeeds on *every* product, query and processed query and
returns exactly the plain score. (Keyword-count divisors are only reached
when a positive match count exists; the one runtime divisor in the boosts,
`maxPrice`, sits behind a truthiness guard; all other divisors are nonzero
literals. Absent metadata and zero counts flow through as zero
contributions; the embedding is total, so the pipeline raises nothing.) -/
theorem c9_ranking_division_guarded (product : Product) (query : JStr)
    (processedQuery : ProcessedQuery) :
    calculateRankingScoreChecked product query processedQuery =
      some (calculateRankingScore product query processedQuery) := by
  simp only [calculateRankingScoreChecked, calculateRelevanceScoreChecked_eq,
    applySpecialBoostsChecked_eq, Option.some_bind]
  rfl

/-- C10: the ranking stage returns a permutation of its candidate list —
scoring decorates, two sort passes permute, and the final projection undoes
the decoration, so no candidate is added, dropped or duplicated. -/
theorem c10_rank_products_permutation (products : List Product) (query : JStr)
    (processedQuery : ProcessedQuery) :
    (rankProducts products query processedQuery).Perm products := by
  have base : ∀ l : List Scored,
      l.Perm (products.map (fun p =>
        Scored.mk p (calculateRankingScore p query processedQuery))) →
      (l.map (fun s => s.product)).Perm products := by
    intro l hl
    have h2 := hl.map (fun s => s.product)
    simpa [Function.comp_def, List.map_id'] using h2
  simp only [rankProducts]
  split_ifs with h1 h2 h3
  · exact base _ ((perm_jsSortSmall _ _).trans (perm_jsSortSmall _ _))
  · exact base _ ((perm_jsSortSmall _ _).trans (perm_jsSortSmall _ _))
  · exact base _ ((perm_jsSortSmall _ _).trans (perm_jsSortSmall _ _))
  · exact base _ (perm_jsSortSmall _ _)

/-- C3 (amended): when `intent.sortBy` is `price_asc`, every pair of
products *adjacent* in the ranked output whose final scores differ by less
than 0.01 appears in non-decreasing price order. (The original claim over
arbitrary pairs is refuted by `ProductSearch.c3_tie_break_counterexample`:
the tie comparator is not transitive, so a near-tied pair separated by a
higher-scoring product can end up in descending price order.) -/
theorem c3_adjacent_tie_break_price_order (products : List Product) (query : JStr)
    (processedQuery : ProcessedQuery)
    (hsort : processedQuery.intent.sortBy = some (js "price_asc"))
    (i : Nat) (x y : Product)
    (hx : (rankProducts products query processedQuery).get? i = some x)
    (hy : (rankProducts products query processedQuery).get? (i + 1) = some y)
    (htie : |calculateRankingScore x query processedQuery -
        calculateRankingScore y query processedQuery| < 0.01) :
    x.price ≤ y.price := by
  have hrank : rankProducts products query processedQuery =
      (jsSortSmall cmpPriceAsc (jsSortSmall cmpScoreDesc (products.map (fun p =>
        Scored.mk p (calculateRankingScore p query processedQuery))))).map
        (fun s => s.product) := by
    simp only [rankProducts, hsort]
    simp
  rw [hrank] at hx hy
  rw [List.get?_map] at hx hy
  obtain ⟨sx, hsx, hsxp⟩ := Option.map_eq_some'.mp hx
  obtain ⟨sy, hsy, hsyp⟩ := Option.map_eq_some'.mp hy
  have hperm : (jsSortSmall cmpPriceAsc (jsSortSmall cmpScoreDesc (products.map (fun p =>
        Scored.mk p (calculateRankingScore p query processedQuery))))).Perm
      (products.map (fun p => Scored.mk p (calculateRankingScore p query processedQuery))) :=
    (perm_jsSortSmall _ _).trans (perm_jsSortSmall _ _)
  have hscore : ∀ s ∈ jsSortSmall cmpPriceAsc (jsSortSmall cmpScoreDesc (products.map (fun p =>
        Scored.mk p (calculateRankingScore p query processedQuery)))),
      s.score = calculateRankingScore s.product query processedQuery := by
    intro s hs
    have hmem2 := hperm.mem_iff.mp hs
    obtain ⟨p, _, hpe⟩ := List.mem_map.mp hmem2
    rw [← hpe]
  have hchain := chain'_jsSortSmall cmpPriceAsc cmpPriceAsc_antisymm
    (jsSortSmall cmpScoreDesc (products.map (fun p =>
      Scored.mk p (calculateRankingScore p query processedQuery))))
  have hR : cmpPriceAsc sx sy ≤ 0 := chain'_get? hchain hsx hsy
  have hscx : sx.score = calculateRankingScore x query processedQuery := by
    rw [hscore sx (List.get?_mem hsx), hsxp]
  have hscy : sy.score = calculateRankingScore y query processedQuery := by
    rw [hscore sy (List.get?_mem hsy), hsyp]
  unfold cmpPriceAsc at hR
  rw [hscx, hscy, hsxp, hsyp] at hR
  rw [if_pos (by rwa [abs_sub_comm] at htie)] at hR
  linarith

/-- C3 counterexample: the claim as stated — over *all* pairs of the ranked
output — fails. In the four-product catalog `tieBreakProducts` with scores
`(0, 0, 1/250, 3/250)` and prices `(1, 0, 1, 2)`, the ranked output under
`price_asc` is `[P3, P4, P2, P1]`; the pair at positions 0 and 2 has score
difference `1/250 < 0.01` but prices `1 > 0` — descending. The tie
comparator is not transitive (P3 and P2 are near-tied with each other but
not with P4, which sits between them), so the sort never compares them. -/
theorem c3_tie_break_counterexample :
    ¬ tiePairsPriceOrdered tieBreakProducts (js "qq") priceAscQuery := by
  intro h
  have h2 := h 0 2 (ratingOnlyProduct 3 1 (2/9)) (ratingOnlyProduct 2 0 0)
    (by omega)
    (by rw [tieBreak_rank_eval]; rfl)
    (by rw [tieBreak_rank_eval]; rfl)
    (by rw [score_rating29, score_rating0]; rw [abs_lt]; norm_num)
  have h3 : (1 : ℚ) ≤ 0 := h2
  norm_num at h3

/-- Witness for the amended C3 at the adjacent pair (positions 0, 1) of the
same scenario: scores 1/250 and 3/250 are near-tied and prices 1 ≤ 2. -/
theorem c3_adjacent_tie_break_price_order_witness :
    (ratingOnlyProduct 3 1 (2/9)).price ≤ (ratingOnlyProduct 4 2 (2/3)).price :=
  c3_adjacent_tie_break_price_order tieBreakProducts (js "qq") priceAscQuery rfl 0
    (ratingOnlyProduct 3 1 (2/9)) (ratingOnlyProduct 4 2 (2/3))
    (by rw [tieBreak_rank_eval]; rfl)
    (by rw [tieBreak_rank_eval]; rfl)
    (by rw [score_rating29, score_rating23]; rw [abs_lt]; norm_num)

/-- Witness for C5: the query "tv under 500" extracts `max = 500` and the
400-rupee catalog product passes the filter. -/
theorem c5_price_filter_max_respected_witness :
    tvProduct ∈ applyFilters [tvProduct] (processQuery (js "tv under 500")) ∧
      tvProduct.price ≤ 500 :=
  ⟨by decide,
    c5_price_filter_max_respected (js "tv under 500") [tvProduct] tvProduct
      { minPrice := none, maxPrice := some 500 } 500 (by decide) (by decide) rfl⟩

end ProductSearch
